import Mathlib

/-!
Verification of the Guided Document Assembly Engine of this repository.

The TypeScript sources are shallowly embedded:
* JavaScript strings are modelled as `List Char` (`Str`), with `trim`,
  `toLower` and substring search defined over characters exactly as the
  JS primitives behave on the inputs used here.
* JavaScript objects used as string-keyed records (`Record<string, T>`,
  `Map`) are modelled as association lists with update-in-place
  semantics (`recSet` keeps the position of an existing key, appends a
  new one, as JS property update does).
* `Date.now()`, `uuidv4()` and the LLM / JSON-parsing collaborators are
  passed in as explicit parameters, matching the spec's treatment of the
  extractor as an external capability.
* Numbers are modelled as `ℚ`.
-/

namespace OpenCanvas

/-- JavaScript strings, modelled as lists of characters. -/
abbrev Str := List Char

/-- Coerce a Lean string literal to the JS string model. -/
def str (s : String) : Str := s.data

/-- Whitespace characters recognised by `String.prototype.trim`. -/
def jsWhitespace (c : Char) : Bool :=
  c = ' ' || c = '\t' || c = '\n' || c = '\r' || c = '\x0b' || c = '\x0c'

/-- Drop leading whitespace (the left half of JS `trim`). -/
def trimStart (s : Str) : Str := s.dropWhile jsWhitespace

/-- Drop trailing whitespace (the right half of JS `trim`). -/
def trimEnd : Str → Str
  | [] => []
  | x :: xs =>
    match trimEnd xs with
    | [] => if jsWhitespace x then [] else [x]
    | y :: ys => x :: y :: ys

/-- JS `String.prototype.trim`: drop whitespace at both ends. -/
def trim (s : Str) : Str := trimEnd (trimStart s)

/-- JS `String.prototype.toLowerCase` (ASCII, which is all the sources use). -/
def toLower (s : Str) : Str := s.map Char.toLower

/-- `leadsWith pat s` is true iff `s` starts with `pat`. -/
def leadsWith : Str → Str → Bool
  | [], _ => true
  | _ :: _, [] => false
  | a :: as, b :: bs => a = b && leadsWith as bs

/-- `hasSub pat s` is true iff `pat` occurs as a contiguous substring of `s`
(JS `String.prototype.includes`). -/
def hasSub (pat : Str) : Str → Bool
  | [] => pat.isEmpty
  | c :: rest => leadsWith pat (c :: rest) || hasSub pat rest

/-- Truthiness of an optional JS string (`undefined` and `""` are falsy). -/
def optStrTruthy : Option Str → Bool
  | none => false
  | some s => !s.isEmpty

/-- Truthiness of `opt?.trim()` for an optional JS string. -/
def optStrTrimTruthy : Option Str → Bool
  | none => false
  | some s => !(trim s).isEmpty

/-- Lookup in a string-keyed JS record / `Map`. -/
def recGet (m : List (Str × α)) (k : Str) : Option α :=
  match m with
  | [] => none
  | (k', v) :: rest => if k' = k then some v else recGet rest k

/-- JS record / `Map` update: replace in place if the key exists,
append otherwise. -/
def recSet (m : List (Str × α)) (k : Str) (v : α) : List (Str × α) :=
  match m with
  | [] => [(k, v)]
  | (k', v') :: rest => if k' = k then (k, v) :: rest else (k', v') :: recSet rest k v

/-- First-occurrence deduplication, as `Array.from(new Set(xs))` produces
(JS `Set` iterates in insertion order). -/
def dedupFirst (l : List Str) : List Str := go [] l
where go (seen : List Str) : List Str → List Str
  | [] => []
  | x :: xs => if x ∈ seen then go seen xs else x :: go (x :: seen) xs

/-- JS `Array.prototype.sort` with a comparator is a stable sort; we model it
as a stable insertion sort.  `le x y` means the comparator would keep `x`
at or before `y`. -/
def insSortBy (le : α → α → Bool) : List α → List α
  | [] => []
  | x :: xs => insertSorted x (insSortBy le xs)
where insertSorted (x : α) : List α → List α
  | [] => [x]
  | y :: ys => if le x y then x :: y :: ys else y :: insertSorted x ys

/-- JS `slice(-n)`: the last `n` characters (the whole string if shorter). -/
def lastN (n : Nat) (s : Str) : Str := s.drop (s.length - n)

-- ### Basic lemmas about the string and record primitives

theorem trimStart_head_not_ws {l : Str} {x : Char} {xs : Str}
    (h : trimStart l = x :: xs) : jsWhitespace x = false := by
  induction l with
  | nil => simp [trimStart] at h
  | cons a as ih =>
    rw [trimStart, List.dropWhile_cons] at h
    by_cases hw : jsWhitespace a
    · rw [if_pos hw] at h
      exact ih h
    · rw [if_neg hw] at h
      cases h
      simpa using hw

theorem trimStart_not_ws_eq {x : Char} {xs : Str}
    (h : jsWhitespace x = false) : trimStart (x :: xs) = x :: xs := by
  simp [trimStart, List.dropWhile, h]

/-- `trimEnd` returns either `[]` or a list with the same head. -/
theorem trimEnd_cons (x : Char) (xs : Str) :
    trimEnd (x :: xs) = [] ∨ ∃ ys, trimEnd (x :: xs) = x :: ys := by
  simp only [trimEnd]
  cases h : trimEnd xs with
  | nil =>
    by_cases hw : jsWhitespace x
    · left; simp [hw]
    · right; exact ⟨[], by simp [hw]⟩
  | cons y ys => right; exact ⟨y :: ys, rfl⟩

theorem trimEnd_cons_eq (x : Char) (xs : Str) :
    trimEnd (x :: xs) =
      match trimEnd xs with
      | [] => if jsWhitespace x then [] else [x]
      | y :: ys => x :: y :: ys := rfl

theorem trimEnd_idem (l : Str) : trimEnd (trimEnd l) = trimEnd l := by
  induction l with
  | nil => rfl
  | cons x xs ih =>
    cases h : trimEnd xs with
    | nil =>
      have hx : trimEnd (x :: xs) = if jsWhitespace x then [] else [x] := by
        rw [trimEnd_cons_eq, h]
      rw [hx]
      by_cases hw : jsWhitespace x
      · simp [hw, trimEnd]
      · simp [hw, trimEnd_cons_eq, trimEnd]
    | cons y ys =>
      have hx : trimEnd (x :: xs) = x :: y :: ys := by
        rw [trimEnd_cons_eq, h]
      rw [h] at ih
      rw [hx, trimEnd_cons_eq, ih]

theorem trim_idem (s : Str) : trim (trim s) = trim s := by
  unfold trim
  have hts : trimStart (trimEnd (trimStart s)) = trimEnd (trimStart s) := by
    cases hu : trimStart s with
    | nil => simp [trimEnd, trimStart, List.dropWhile]
    | cons x xs =>
      rcases trimEnd_cons x xs with h | ⟨ys, h⟩
      · simp [h, trimStart, List.dropWhile]
      · rw [h, trimStart_not_ws_eq (trimStart_head_not_ws hu)]
  rw [hts, trimEnd_idem]

theorem mem_dedupFirst_go (a : Str) (seen : List Str) (l : List Str) :
    a ∈ dedupFirst.go seen l ↔ a ∈ l ∧ a ∉ seen := by
  induction l generalizing seen with
  | nil => simp [dedupFirst.go]
  | cons x xs ih =>
    by_cases hx : x ∈ seen
    · rw [dedupFirst.go, if_pos hx, ih]
      constructor
      · rintro ⟨h1, h2⟩; exact ⟨.tail _ h1, h2⟩
      · rintro ⟨h1, h2⟩
        cases h1 with
        | head => exact absurd hx h2
        | tail _ h => exact ⟨h, h2⟩
    · rw [dedupFirst.go, if_neg hx]
      by_cases hax : a = x
      · subst hax; simp [hx]
      · simp only [List.mem_cons, hax, false_or]
        rw [ih]
        constructor
        · rintro ⟨h1, h2⟩
          exact ⟨h1, fun hmem => h2 (.tail _ hmem)⟩
        · rintro ⟨h1, h2⟩
          exact ⟨h1, fun hmem => by
            cases hmem with
            | head => exact hax rfl
            | tail _ h => exact h2 h⟩

theorem mem_dedupFirst (a : Str) (l : List Str) : a ∈ dedupFirst l ↔ a ∈ l := by
  rw [dedupFirst, mem_dedupFirst_go]; simp

theorem recGet_set_eq (m : List (Str × α)) (k : Str) (v : α) :
    recGet (recSet m k v) k = some v := by
  induction m with
  | nil => simp [recGet, recSet]
  | cons p rest ih =>
    obtain ⟨k', v'⟩ := p
    by_cases h : k' = k
    · simp [recGet, recSet, h]
    · simp [recGet, recSet, h, ih]

theorem recGet_set_ne (m : List (Str × α)) (k f : Str) (v : α) (hne : f ≠ k) :
    recGet (recSet m k v) f = recGet m f := by
  have hkf : ¬ k = f := fun hh => hne hh.symm
  induction m with
  | nil => simp [recGet, recSet, hkf]
  | cons p rest ih =>
    obtain ⟨k', v'⟩ := p
    by_cases h : k' = k
    · subst h
      simp [recGet, recSet, hkf]
    · simp only [recSet, if_neg h, recGet, ih]

-- ### Data model (apps/agents/src/docs/types.ts)

/-- `AnswerSource` from `docs/types.ts`. -/
inductive AnswerSource
  | user
  | research
  | assumption
deriving DecidableEq

/-- `RequirementSpec` from `docs/types.ts` (`weight?: number`). -/
structure RequirementSpec where
  id : Str
  label : Str
  description : Str
  weight : Option ℚ
  required : Bool

/-- `QuestionSpec` from `docs/types.ts`. -/
structure QuestionSpec where
  id : Str
  text : Str
  targets : List Str

/-- `ResearchPromptSpec` from `docs/types.ts`. -/
structure ResearchPromptSpec where
  query : Str
  applies_to : List Str

/-- `DocumentDefinition` from `docs/types.ts`. -/
structure DocumentDefinition where
  id : Str
  name : Str
  description : Str
  stage_hint : Option Str
  template : Str
  template_markdown : Option Str
  prerequisites : Option Str
  required_fields : List RequirementSpec
  optional_fields : List RequirementSpec
  diagnostic_questions : List QuestionSpec
  research_prompts : Option (List ResearchPromptSpec)

/-- `AnswerRecord` from `docs/types.ts`; timestamps are `Date.now()` values. -/
structure AnswerRecord where
  fieldId : Str
  value : Str
  source : AnswerSource
  confidence : ℚ
  timestamps : List ℕ

/-- `Citation` from `docs/types.ts`. -/
structure Citation where
  id : Str
  label : Str
  url : Str
  note : Str
  appliesTo : List Str

/-- `QuestionPlanItem` from `docs/types.ts`. -/
structure QuestionPlanItem where
  id : Str
  text : Str
  targets : List Str
  priority : ℚ

/-- `ResearchPlanItem` from `docs/types.ts`. -/
structure ResearchPlanItem where
  id : Str
  query : Str
  appliesTo : List Str

/-- `DocSessionState` from `docs/types.ts`.  The `answers` and `dossier`
records are association lists (see header). -/
structure DocSessionState where
  active : Bool
  docType : Str
  definition : DocumentDefinition
  answers : List (Str × AnswerRecord)
  dossier : List (Str × Str)
  pendingQuestions : List QuestionPlanItem
  researchPlan : List ResearchPlanItem
  citations : List Citation
  confidence : ℚ
  readyToGenerate : Bool
  template : Str
  title : Str
  processedMessageIds : List Str
  lastAskedQuestionId : Option Str

-- ### Document Definition Catalog (apps/agents/src/docs/catalog.ts)

/-- `RawRequirement` from `catalog.ts`. -/
structure RawRequirement where
  id : Str
  label : Str
  description : Str
  weight : Option ℚ

/-- `RawQuestion` from `catalog.ts`. -/
structure RawQuestion where
  id : Str
  text : Str
  targets : List Str

/-- `RawResearchPrompt` from `catalog.ts`. -/
structure RawResearchPrompt where
  query : Str
  applies_to : List Str

/-- `RawDocumentDefinition` from `catalog.ts`.  Fields read with `?.` /
`??` in the loader are `Option`s. -/
structure RawDocumentDefinition where
  id : Str
  name : Str
  description : Str
  stage_hint : Option Str
  template : Str
  pre_requisites_documents : Option Str
  document_template : Option Str
  required_fields : List RawRequirement
  optional_fields : Option (List RawRequirement)
  diagnostic_questions : Option (List RawQuestion)
  research_prompts : Option (List RawResearchPrompt)

/-- The result of `YAML.parse` on the catalog source: `doc_types` is `none`
when the key is missing or not an array (`!Array.isArray(parsed.doc_types)`);
the outer `Option` is `none` when the parse itself produced a falsy value. -/
structure DocCatalogRaw where
  doc_types : Option (List RawDocumentDefinition)

/-- `normalizeRequirement` from `catalog.ts`: the loader defaults a missing
weight to 1 for required AND optional fields alike. -/
def normalizeRequirement (input : RawRequirement) (required : Bool) : RequirementSpec :=
  { id := input.id
    label := input.label
    description := input.description
    weight := some (input.weight.getD 1)
    required := required }

/-- `normalizeQuestion` from `catalog.ts`. -/
def normalizeQuestion (input : RawQuestion) : QuestionSpec :=
  { id := input.id, text := input.text, targets := input.targets }

/-- The per-document normalisation performed inside `loadDocumentCatalog`. -/
def normalizeRawDocument (doc : RawDocumentDefinition) : DocumentDefinition :=
  { id := doc.id
    name := doc.name
    description := doc.description
    stage_hint := doc.stage_hint
    template := doc.template
    template_markdown := doc.document_template
    prerequisites := doc.pre_requisites_documents
    required_fields := doc.required_fields.map (fun f => normalizeRequirement f true)
    optional_fields := (doc.optional_fields.getD []).map (fun f => normalizeRequirement f false)
    diagnostic_questions := (doc.diagnostic_questions.getD []).map normalizeQuestion
    research_prompts := doc.research_prompts.map (fun l =>
      l.map (fun item => { query := item.query, applies_to := item.applies_to })) }

/-- `new Map(entries)`: later entries with the same key overwrite earlier
ones; we build the map with `recSet`. -/
def mapFromEntries (entries : List (Str × α)) : List (Str × α) :=
  entries.foldl (fun m p => recSet m p.1 p.2) []

/-- `loadDocumentCatalog` from `catalog.ts`, applied to the parsed catalog
source.  File reading and YAML parsing are platform I/O; the function is
embedded from the point where the parsed value is examined.  It throws
(models as `Except.error`) only when the parsed value is falsy or
`doc_types` is not an array; question targets are NOT validated. -/
def loadDocumentCatalog (parsed : Option DocCatalogRaw) :
    Except Str (List (Str × DocumentDefinition)) :=
  match parsed with
  | none => .error (str "doc_types.yml is missing `doc_types` array")
  | some cat =>
    match cat.doc_types with
    | none => .error (str "doc_types.yml is missing `doc_types` array")
    | some docs =>
      .ok (mapFromEntries (docs.map (fun doc => (doc.id, normalizeRawDocument doc))))

/-- The `coverageWeights` map built at the top of `materializeQuestionPlan`:
every required field is set to `weight ?? 1`, then every optional field to
`weight ?? 0.5` (a later `set` overwrites an earlier one). -/
def coverageWeights (definition : DocumentDefinition) : List (Str × ℚ) :=
  definition.optional_fields.foldl
    (fun m f => recSet m f.id (f.weight.getD (1/2)))
    (definition.required_fields.foldl (fun m f => recSet m f.id (f.weight.getD 1)) [])

/-- `materializeQuestionPlan` from `catalog.ts`: one plan item per diagnostic
question, priority = Σ target weights (unknown targets count 0.5) plus the
`1/(index+1)` tie-breaker.  The output is in catalog order, not sorted. -/
def materializeQuestionPlan (definition : DocumentDefinition) : List QuestionPlanItem :=
  let weights := coverageWeights definition
  definition.diagnostic_questions.enum.map (fun p =>
    let priority := p.2.targets.foldl
      (fun acc fieldId => acc + (recGet weights fieldId).getD (1/2)) 0
    { id := p.2.id
      text := p.2.text
      targets := p.2.targets
      priority := priority + 1 / (p.1 + 1 : ℚ) })

-- ### Confidence Scorer (apps/agents/src/docs/scoring.ts)

/-- `ConfidenceReport` from `docs/scoring.ts`. -/
structure ConfidenceReport where
  completeness : ℚ
  evidence : ℚ
  clarity : ℚ
  overall : ℚ
  missingRequired : List RequirementSpec

/-- `PLACEHOLDER_REGEX.test(value)`: case-insensitive substring match against
the four placeholder phrases. -/
def isPlaceholderValue (value : Str) : Bool :=
  let n := toLower value
  hasSub (str "tbd") n || hasSub (str "to be determined") n ||
  hasSub (str "lorem ipsum") n || hasSub (str "fill me") n

/-- `value && value.trim().length > 0` on a dossier lookup. -/
def dossierNonBlank (value : Option Str) : Bool :=
  match value with
  | none => false
  | some v => !(trim v).isEmpty

/-- Plain truthiness `Boolean(dossier[field.id])` of a dossier lookup. -/
def dossierTruthy (value : Option Str) : Bool :=
  match value with
  | none => false
  | some v => !v.isEmpty

/-- The `citationsByField` count map built inside `computeConfidence`. -/
def citationsByField (citations : List Citation) : List (Str × ℕ) :=
  citations.foldl (fun m c =>
    c.appliesTo.foldl (fun m fieldId => recSet m fieldId ((recGet m fieldId).getD 0 + 1)) m) []

/-- `Number(x.toFixed(3))`: round to 3 decimal places. -/
def roundTo3 (x : ℚ) : ℚ := ((round (x * 1000) : ℤ) : ℚ) / 1000

/-- `computeConfidence` from `docs/scoring.ts` (`src/unnamed/part_002`). -/
def computeConfidence (definition : DocumentDefinition) (dossier : List (Str × Str))
    (citations : List Citation) : ConfidenceReport :=
  let required := definition.required_fields
  let optional := definition.optional_fields
  let totalWeight := required.foldl (fun acc f => acc + f.weight.getD 1) (0 : ℚ)
  let coveredWeight := (required.filter (fun f => dossierNonBlank (recGet dossier f.id))).foldl
    (fun acc f => acc + f.weight.getD 1) (0 : ℚ)
  let missingRequired := required.filter (fun f => !dossierNonBlank (recGet dossier f.id))
  let completeness := if totalWeight = 0 then 0 else coveredWeight / totalWeight
  let counts := citationsByField citations
  let evidenceDenominator :=
    ((required ++ optional).filter (fun f => dossierTruthy (recGet dossier f.id))).length
  let evidence :=
    if evidenceDenominator = 0 then 0
    else ((required ++ optional).foldl (fun acc f =>
      if !dossierTruthy (recGet dossier f.id) then acc
      else acc + (if (recGet counts f.id).isSome then 1 else 0)) (0 : ℚ)) / evidenceDenominator
  let clarityDenominator := if dossier.length = 0 then 1 else dossier.length
  let unclearCount := dossier.foldl (fun acc kv =>
    if kv.2.isEmpty then acc + 1
    else if isPlaceholderValue kv.2 then acc + 1 else acc) (0 : ℚ)
  let clarity := 1 - unclearCount / (clarityDenominator : ℚ)
  let overall := roundTo3 (0.5 * completeness + 0.3 * evidence + 0.2 * clarity)
  { completeness := completeness
    evidence := evidence
    clarity := clarity
    overall := overall
    missingRequired := missingRequired }

-- ### Session helpers (apps/agents/src/docs/session.ts)

/-- `calculateCoverageConfidence` from `docs/session.ts`: percentage of
required fields with a non-blank answer, `Math.round`ed. -/
def calculateCoverageConfidence (definition : DocumentDefinition)
    (answers : List (Str × AnswerRecord)) : ℚ :=
  let requiredIds := definition.required_fields.map (fun f => f.id)
  if requiredIds.isEmpty then 0
  else
    let answeredCount := (requiredIds.filter (fun fieldId =>
      match recGet answers fieldId with
      | some r => !(trim r.value).isEmpty
      | none => false)).length
    ((round ((answeredCount : ℚ) / (requiredIds.length : ℚ) * 100) : ℤ) : ℚ)

/-- `findNextQuestion` from `docs/session.ts`. -/
def findNextQuestion (session : DocSessionState) : Option QuestionPlanItem :=
  session.pendingQuestions.head?

-- ### Messages (LangChain `BaseMessage`, as consumed by the nodes)

/-- The parts of a LangChain `BaseMessage` the embedded code reads:
`getType()`, `id`, `kwargs.id`, `additional_kwargs.id` and the string
content (`getStringFromContent`). -/
structure BaseMessage where
  role : Str
  id : Option Str
  kwargsId : Option Str
  additionalKwargsId : Option Str
  content : Str

/-- `[...messages].reverse().find(m => m.getType() === "human")`. -/
def latestHumanMessage (messages : List BaseMessage) : Option BaseMessage :=
  messages.reverse.find? (fun m => m.role = str "human")

-- ### Per-turn session update (open-canvas/nodes/concept-note-action.ts)

/-- `getDeterministicMessageId` from `concept-note-action.ts`. -/
def getDeterministicMessageId (message : BaseMessage) : Option Str :=
  if optStrTrimTruthy message.id then message.id
  else if optStrTrimTruthy message.kwargsId then message.kwargsId
  else if optStrTrimTruthy message.additionalKwargsId then message.additionalKwargsId
  else if !(trim message.content).isEmpty then
    some (str "content:" ++ lastN 64 (trim message.content))
  else none

/-- The `READY_PATTERNS` regex battery of `concept-note-action.ts`,
expressed as the equivalent case-insensitive substring tests
(`document` begins with `doc`, so the `(?:the )?(?:doc|document|draft)`
alternation reduces to the four substrings below). -/
def matchesReadyPattern (text : Str) : Bool :=
  let n := toLower text
  hasSub (str "ready to start") n || hasSub (str "ready to generate") n ||
  hasSub (str "ready to draft") n ||
  hasSub (str "go ahead and start") n || hasSub (str "go ahead and generate") n ||
  hasSub (str "go ahead and draft") n ||
  hasSub (str "generate doc") n || hasSub (str "generate the doc") n ||
  hasSub (str "generate draft") n || hasSub (str "generate the draft") n ||
  hasSub (str "were ready") n || hasSub (str "we're ready") n ||
  hasSub (str "we’re ready") n

/-- `detectReadyIntent` from `concept-note-action.ts`. -/
def detectReadyIntent (text : Str) : Bool :=
  if (trim text).isEmpty then false else matchesReadyPattern text

/-- The result of `extractProjectUserDetails`: pretty-printed `project` /
`user` values.  JSON parsing and `JSON.stringify` are platform primitives;
the whole extractor is passed to `processDocSessionMessages` as a
parameter. -/
structure ProjectUserDetails where
  project : Option Str
  user : Option Str

/-- `mergeProjectUserDetails` from `concept-note-action.ts`. -/
def mergeProjectUserDetails (session : DocSessionState)
    (details : Option ProjectUserDetails) : DocSessionState :=
  match details with
  | none => session
  | some d =>
    if d.project.isNone && d.user.isNone then session
    else
      let projectUnchanged :=
        match d.project with
        | none => true
        | some p => recGet session.dossier (str "project_details") = some p
      let userUnchanged :=
        match d.user with
        | none => true
        | some u => recGet session.dossier (str "user_details") = some u
      if projectUnchanged && userUnchanged then session
      else
        let dossier1 :=
          match d.project with
          | none => session.dossier
          | some p => recSet session.dossier (str "project_details") p
        let dossier2 :=
          match d.user with
          | none => dossier1
          | some u => recSet dossier1 (str "user_details") u
        { session with dossier := dossier2 }

/-- The `lastAskedQuestionId` block of `processDocSessionMessages`: when a
question was asked last turn and is still pending and the message is not a
readiness utterance, record the whole message as the answer for each of the
question's targets, drop the question, and recompute readiness from
required-field coverage (>= 75) or question exhaustion. -/
def applyAnswerToAskedQuestion (now : ℕ) (updatedSession1 : DocSessionState)
    (trimmedContent : Str) (readyIntent : Bool) : DocSessionState :=
  if !optStrTruthy updatedSession1.lastAskedQuestionId then updatedSession1
  else
    let qid := updatedSession1.lastAskedQuestionId.getD []
    match updatedSession1.pendingQuestions.find? (fun q => q.id = qid) with
    | some targetQuestion =>
      if readyIntent then { updatedSession1 with lastAskedQuestionId := none }
      else
        let updatedAnswers := targetQuestion.targets.foldl (fun ua targetId =>
          if targetId.isEmpty then ua
          else recSet ua targetId
            { fieldId := targetId
              value := trimmedContent
              source := AnswerSource.user
              confidence := 0.7
              timestamps := ((recGet ua targetId).map (fun r => r.timestamps)).getD [] ++ [now] })
          updatedSession1.answers
        let remainingQuestions :=
          updatedSession1.pendingQuestions.filter (fun q => q.id ≠ targetQuestion.id)
        let confidence :=
          calculateCoverageConfidence updatedSession1.definition updatedAnswers
        let readyToGenerate := decide (75 ≤ confidence) || remainingQuestions.isEmpty
        { updatedSession1 with
            answers := updatedAnswers
            pendingQuestions := remainingQuestions
            confidence := confidence
            readyToGenerate := readyToGenerate
            lastAskedQuestionId := none }
    | none => { updatedSession1 with lastAskedQuestionId := none }

/-- The body of `processDocSessionMessages` after the dedup guard:
`updatedSession0` already carries the extended `processedMessageIds`.
`jsonDetails` is the `extractProjectUserDetails` JSON extractor and `now`
is `Date.now()`. -/
def processDocSessionCore (jsonDetails : Str → Option ProjectUserDetails) (now : ℕ)
    (updatedSession0 : DocSessionState) (content : Str) : DocSessionState :=
  let trimmedContent := trim content
  if trimmedContent.isEmpty then updatedSession0
  else
    let updatedSession1 := mergeProjectUserDetails updatedSession0 (jsonDetails trimmedContent)
    let readyIntent := detectReadyIntent trimmedContent
    let updatedSession2 :=
      applyAnswerToAskedQuestion now updatedSession1 trimmedContent readyIntent
    if !updatedSession2.readyToGenerate && readyIntent then
      { updatedSession2 with readyToGenerate := true }
    else updatedSession2

/-- `processDocSessionMessages` from `concept-note-action.ts`. -/
def processDocSessionMessages (jsonDetails : Str → Option ProjectUserDetails) (now : ℕ)
    (session : DocSessionState) (messages : List BaseMessage) : DocSessionState :=
  match latestHumanMessage messages with
  | none => session
  | some latestHuman =>
    match getDeterministicMessageId latestHuman with
    | some messageId =>
      if messageId ∈ session.processedMessageIds then session
      else
        processDocSessionCore jsonDetails now
          { session with processedMessageIds := session.processedMessageIds ++ [messageId] }
          latestHuman.content
    | none => processDocSessionCore jsonDetails now session latestHuman.content

-- ### Doc session turn (open-canvas/nodes/generate-artifact/docs-session.ts)

/-- One structured answer returned by the `extract_document_fields` LLM call. -/
structure ExtractedAnswer where
  fieldId : Str
  value : Str
  confidence : ℚ

/-- The `extractionSchema` result of the LLM call inside
`updateSessionFromMessage`; `none` models the `catch` path (extraction
failure). -/
structure ExtractionResponse where
  answers : List ExtractedAnswer
  title : Option Str

/-- `getMessageId` from `docs-session.ts`. -/
def getMessageId (message : BaseMessage) (fallbackIndex : ℕ) : Str :=
  match message.id with
  | some i => i
  | none => message.role ++ str "-" ++ str (toString fallbackIndex)

/-- The loop body of `updateSessionFromMessage`'s answer merge: skip blank
values, otherwise write the trimmed value into `answers` (appending `now`
to the timestamp history read from the pre-merge `session.answers`) and
into `dossier`. -/
def applyExtractedAnswer (sessionAnswers : List (Str × AnswerRecord)) (now : ℕ)
    (acc : List (Str × AnswerRecord) × List (Str × Str)) (a : ExtractedAnswer) :
    List (Str × AnswerRecord) × List (Str × Str) :=
  if (trim a.value).isEmpty then acc
  else
    (recSet acc.1 a.fieldId
      { fieldId := a.fieldId
        value := trim a.value
        source := AnswerSource.user
        confidence := a.confidence
        timestamps :=
          ((recGet sessionAnswers a.fieldId).map
            (fun rec0 : AnswerRecord => rec0.timestamps)).getD [] ++ [now] },
     recSet acc.2 a.fieldId (trim a.value))

/-- `updateSessionFromMessage` from `docs-session.ts`.  The LLM extraction
call is passed in as `response` (`none` = failed / no structured output);
`now` is `Date.now()`. -/
def updateSessionFromMessage (session : DocSessionState) (message : BaseMessage)
    (messageIndex : ℕ) (response : Option ExtractionResponse) (now : ℕ) : DocSessionState :=
  let messageId := getMessageId message messageIndex
  if messageId ∈ session.processedMessageIds then session
  else
    let step :=
      match response with
      | none => (session.answers, session.dossier, session.title)
      | some r =>
        let pair := r.answers.foldl (applyExtractedAnswer session.answers now)
          (session.answers, session.dossier)
        let title :=
          match r.title with
          | some t => if t.isEmpty then session.title else t
          | none => session.title
        (pair.1, pair.2, title)
    let updatedAnswers := step.1
    let updatedDossier := step.2.1
    let title := step.2.2
    let processedMessageIds := session.processedMessageIds ++ [messageId]
    let filteredQuestions := session.pendingQuestions.filter (fun question =>
      !(question.targets.all (fun target => dossierNonBlank (recGet updatedDossier target))))
    { session with
        answers := updatedAnswers
        dossier := updatedDossier
        pendingQuestions :=
          insSortBy (fun a b => decide (b.priority ≤ a.priority)) filteredQuestions
        processedMessageIds := processedMessageIds
        title := title
        lastAskedQuestionId := none }

/-- The readiness recomputation of `maybeHandleDocSession`
(`docs-session.ts` lines 309–319): confidence and `readyToGenerate` are
recomputed from the current dossier on every turn. -/
def refreshDocSessionReadiness (session : DocSessionState) : DocSessionState :=
  let confidenceReport := computeConfidence session.definition session.dossier session.citations
  let ready :=
    decide ((0.75 : ℚ) ≤ confidenceReport.overall) && confidenceReport.missingRequired.isEmpty
  { session with confidence := confidenceReport.overall, readyToGenerate := ready }

/-- The per-message state update performed by `maybeHandleDocSession`
(`docs-session.ts` lines 304–319): process the latest human message, then
recompute confidence and readiness. -/
def maybeHandleDocSessionStep (session : DocSessionState) (message : BaseMessage)
    (messageIndex : ℕ) (response : Option ExtractionResponse) (now : ℕ) : DocSessionState :=
  refreshDocSessionReadiness (updateSessionFromMessage session message messageIndex response now)

-- ### Clarification Blueprint Engine (open-canvas/nodes/concept-note/user-intake.ts)

/-- `UserInputs.outputPreferences` from `concept-note-state.ts`. -/
structure OutputPreferences where
  format : Option Str
  length : Option Str
  includeVisuals : Option Bool

/-- `UserInputs` from `concept-note-state.ts` (every field optional; a
`Partial<UserInputs>` is the same shape). -/
structure UserInputs where
  title : Option Str
  description : Option Str
  targetAudience : Option Str
  budget : Option Str
  timeline : Option Str
  scope : Option Str
  requirements : Option (List Str)
  objectives : Option (List Str)
  keyActivities : Option (List Str)
  keyChallenges : Option (List Str)
  successMetrics : Option (List Str)
  keyPartners : Option (List Str)
  outputPreferences : Option OutputPreferences

/-- The empty `UserInputs` object `{}`. -/
def emptyInputs : UserInputs :=
  { title := none, description := none, targetAudience := none, budget := none
    timeline := none, scope := none, requirements := none, objectives := none
    keyActivities := none, keyChallenges := none, successMetrics := none
    keyPartners := none, outputPreferences := none }

/-- `!inputs.xs || inputs.xs.length === 0` for a list-valued field. -/
def optListNeedy : Option (List Str) → Bool
  | none => true
  | some l => l.isEmpty

/-- `MAX_QUESTIONS_PER_PROMPT` from `user-intake.ts`. -/
def MAX_QUESTIONS_PER_PROMPT : ℕ := 4

/-- `MIN_DESCRIPTION_LENGTH` from `user-intake.ts`. -/
def MIN_DESCRIPTION_LENGTH : ℕ := 80

/-- `isGenericTitle` from `user-intake.ts`. -/
def isGenericTitle (title : Option Str) : Bool :=
  match title with
  | none => true
  | some t =>
    let normalized := toLower (trim t)
    if normalized.length ≤ 6 then true
    else
      [str "concept note", str "project concept", str "project proposal",
       str "concept paper", str "proposal"].contains normalized

/-- One `CLARITY_BLUEPRINT` entry from `user-intake.ts`. -/
structure ClarityBlueprintEntry where
  field : Str
  question : Str
  rationale : Str
  required : Bool
  assumptionSuggestion : Option Str
  priority : ℕ
  followUpNeeded : UserInputs → Bool

/-- The `CLARITY_BLUEPRINT` list from `user-intake.ts`. -/
def CLARITY_BLUEPRINT : List ClarityBlueprintEntry :=
  [ { field := str "title"
      question := str "What working title should we use for this project or initiative?"
      rationale := str "A clear title helps stakeholders quickly understand the concept note."
      required := true
      assumptionSuggestion := some (str "I can suggest a working title if you'd like me to propose one.")
      priority := 1
      followUpNeeded := fun inputs => !optStrTruthy inputs.title || isGenericTitle inputs.title },
    { field := str "description"
      question := str "What challenge are we addressing and what change do you want to see?"
      rationale := str "The description anchors every other section of the concept note."
      required := true
      assumptionSuggestion := some (str "If it's easier, share a few bullet points and I'll shape the narrative.")
      priority := 2
      followUpNeeded := fun inputs =>
        !optStrTruthy inputs.description ||
        decide ((trim (inputs.description.getD [])).length < MIN_DESCRIPTION_LENGTH) },
    { field := str "objectives"
      question := str "What are the top 2–3 objectives or outcomes you want from the project?"
      rationale := str "Objectives steer scope, success metrics, and stakeholder expectations."
      required := false
      assumptionSuggestion := some (str "I can draft provisional objectives based on the problem we define.")
      priority := 3
      followUpNeeded := fun inputs => optListNeedy inputs.objectives },
    { field := str "targetAudience"
      question := str "Who are the primary stakeholders or beneficiaries we should plan this for?"
      rationale := str "Audience definitions tailor messaging, tone, and success criteria."
      required := false
      assumptionSuggestion := some (str "We can assume a general stakeholder audience if unspecified.")
      priority := 4
      followUpNeeded := fun inputs => !optStrTruthy inputs.targetAudience },
    { field := str "timeline"
      question := str "What timeline or key milestones are you targeting?"
      rationale := str "Schedule expectations influence the phasing and resourcing story."
      required := false
      assumptionSuggestion := some (str "I can assume a 6–12 month rollout if you don't have a timeline yet.")
      priority := 5
      followUpNeeded := fun inputs => !optStrTruthy inputs.timeline },
    { field := str "budget"
      question := str "Do you have a working budget or funding envelope in mind?"
      rationale := str "Budget guidance helps shape scope and the investment narrative."
      required := false
      assumptionSuggestion := some (str "We can note that budget will be confirmed during planning.")
      priority := 6
      followUpNeeded := fun inputs => !optStrTruthy inputs.budget },
    { field := str "scope"
      question := str "Is there a geographic or organizational scope we should design around?"
      rationale := str "Scope decisions influence compliance, partnerships, and delivery model."
      required := false
      assumptionSuggestion := some (str "I'll assume a local or regional scope if nothing specific is set.")
      priority := 7
      followUpNeeded := fun inputs => !optStrTruthy inputs.scope },
    { field := str "keyActivities"
      question := str "What major activities or workstreams have you considered so far?"
      rationale := str "Activities help size the effort and align expectations."
      required := false
      assumptionSuggestion := some (str "I can outline a typical phased delivery plan if needed.")
      priority := 8
      followUpNeeded := fun inputs => optListNeedy inputs.keyActivities },
    { field := str "keyChallenges"
      question := str "Any known risks, constraints, or sensitivities we should factor in?"
      rationale := str "Calling out risks early lets us plan mitigations in the concept note."
      required := false
      assumptionSuggestion := some (str "I'll highlight standard change management and resourcing risks.")
      priority := 9
      followUpNeeded := fun inputs => optListNeedy inputs.keyChallenges },
    { field := str "successMetrics"
      question := str "How will you know this project worked? Any KPIs or signals of success?"
      rationale := str "Success metrics tie objectives to measurable outcomes."
      required := false
      assumptionSuggestion := some (str "I can draft provisional KPIs aligned to the objectives.")
      priority := 10
      followUpNeeded := fun inputs => optListNeedy inputs.successMetrics },
    { field := str "keyPartners"
      question := str "Are there partners, departments, or champions we should call out?"
      rationale := str "Listing partners strengthens the delivery plan and governance model."
      required := false
      assumptionSuggestion := some (str "I can list typical internal sponsors and external collaborators.")
      priority := 11
      followUpNeeded := fun inputs => optListNeedy inputs.keyPartners } ]

/-- `BLUEPRINT_LOOKUP.get(field)` from `user-intake.ts`. -/
def blueprintLookup (field : Str) : Option ClarityBlueprintEntry :=
  CLARITY_BLUEPRINT.find? (fun e => e.field = field)

/-- The blueprint priority used by the pending-question sort
(`?? Number.MAX_SAFE_INTEGER`). -/
def blueprintPriority (field : Str) : ℕ :=
  match blueprintLookup field with
  | some e => e.priority
  | none => 9007199254740991

/-- `didUserRequestAssumptions` from `user-intake.ts`: lexical cues for
"proceed with assumptions", on the lower-cased message. -/
def didUserRequestAssumptions (content : Str) : Bool :=
  let normalized := toLower content
  if normalized.isEmpty then false
  else
    let explicitAssumption :=
      hasSub (str "you can assume") normalized || hasSub (str "feel free to assume") normalized
    let proceedLanguage :=
      (hasSub (str "proceed") normalized || hasSub (str "go ahead") normalized ||
       hasSub (str "continue") normalized || hasSub (str "carry on") normalized ||
       hasSub (str "keep going") normalized) &&
      (hasSub (str "assume") normalized || hasSub (str "assumption") normalized ||
       hasSub (str "decide") normalized || hasSub (str "estimate") normalized ||
       hasSub (str "use your judgment") normalized || hasSub (str "make a call") normalized)
    explicitAssumption || proceedLanguage

/-- `capitalize` from `user-intake.ts`. -/
def capitalize (value : Str) : Str :=
  match value with
  | [] => []
  | c :: rest => c.toUpper :: toLower rest

/-- ASCII letters and digits (the `[^a-zA-Z0-9\s]` character class). -/
def isAlnumAscii (c : Char) : Bool :=
  ('a' ≤ c && c ≤ 'z') || ('A' ≤ c && c ≤ 'Z') || ('0' ≤ c && c ≤ '9')

/-- `description.replace(/[^a-zA-Z0-9\s]/g, " ")`. -/
def replaceNonAlnum (s : Str) : Str :=
  s.map (fun c => if isAlnumAscii c || jsWhitespace c then c else ' ')

/-- Helper for `split(/\s+/)`: the maximal whitespace-free runs (empty
fragments are dropped; the caller filters on `length > 3` anyway). -/
def wordRunsAux (cur : Str) : Str → List Str
  | [] => if cur.isEmpty then [] else [cur.reverse]
  | c :: rest =>
    if jsWhitespace c then
      if cur.isEmpty then wordRunsAux [] rest
      else cur.reverse :: wordRunsAux [] rest
    else wordRunsAux (c :: cur) rest

/-- `split(/\s+/)` restricted to its non-empty fragments. -/
def wordRuns (s : Str) : List Str := wordRunsAux [] s

/-- `suggestWorkingTitle` from `user-intake.ts`.  Every code path returns a
(non-empty) string, so the result is a plain `Str`. -/
def suggestWorkingTitle (inputs : UserInputs) : Str :=
  if optStrTruthy inputs.title && !isGenericTitle inputs.title then inputs.title.getD []
  else
    let descriptionOk :=
      match inputs.description with
      | some d => !(trim d).isEmpty
      | none => false
    let fromDescription : Option Str :=
      if descriptionOk then
        let d := trim (inputs.description.getD [])
        let words :=
          (((wordRuns (replaceNonAlnum d)).filter (fun w => w.length > 3)).take 4).map capitalize
        if words.length ≥ 2 then
          some (List.intercalate (str " ") (words.take 3) ++ str " Initiative")
        else none
      else none
    match fromDescription with
    | some t => t
    | none =>
      if optStrTruthy inputs.targetAudience then
        inputs.targetAudience.getD [] ++ str " Concept Initiative"
      else str "Strategic Concept Note Initiative"

/-- `suggestObjectives` from `user-intake.ts` (`Set` iteration =
first-occurrence order). -/
def suggestObjectives (inputs : UserInputs) : List Str :=
  dedupFirst
    [ str "Validate the solution approach through a structured pilot and stakeholder feedback.",
      str "Deliver measurable improvements for " ++
        (if optStrTruthy inputs.targetAudience then inputs.targetAudience.getD []
         else str "key stakeholders") ++
        str " within the initial implementation cycle.",
      str "Establish governance, success metrics, and a roadmap that enable sustainable scale." ]

/-- `applyAssumptionForField` from `user-intake.ts`: returns whether the
field was defaulted, together with the updated inputs (the source mutates
`inputs` in place).  NOTE: the `switch` has no case for `description`, which
therefore falls through to `default: return false`. -/
def applyAssumptionForField (field : Str) (inputs : UserInputs) : Bool × UserInputs :=
  if field = str "title" then
    let suggestion := suggestWorkingTitle inputs
    if !suggestion.isEmpty then (true, { inputs with title := some suggestion })
    else (false, inputs)
  else if field = str "objectives" then
    if optListNeedy inputs.objectives then
      (true, { inputs with objectives := some (suggestObjectives inputs) })
    else (false, inputs)
  else if field = str "targetAudience" then
    if !optStrTruthy inputs.targetAudience then
      (true, { inputs with targetAudience := some (str "General stakeholders (assumed)") })
    else (false, inputs)
  else if field = str "timeline" then
    if !optStrTruthy inputs.timeline then
      (true, { inputs with timeline := some (str "Approximately 6–12 months (assumed)") })
    else (false, inputs)
  else if field = str "budget" then
    if !optStrTruthy inputs.budget then
      (true, { inputs with budget := some (str "Budget to be confirmed during planning (assumed)") })
    else (false, inputs)
  else if field = str "scope" then
    if !optStrTruthy inputs.scope then
      (true, { inputs with scope := some (str "Local or regional focus (assumed)") })
    else (false, inputs)
  else if field = str "keyActivities" then
    if optListNeedy inputs.keyActivities then
      (true, { inputs with keyActivities := some [
          str "Discovery and requirements workshops",
          str "Pilot implementation of the core solution",
          str "Evaluation and scale-up planning" ] })
    else (false, inputs)
  else if field = str "keyChallenges" then
    if optListNeedy inputs.keyChallenges then
      (true, { inputs with keyChallenges := some [
          str "Stakeholder alignment and change management",
          str "Resource availability and budget approvals",
          str "Data, compliance, or policy considerations" ] })
    else (false, inputs)
  else if field = str "successMetrics" then
    if optListNeedy inputs.successMetrics then
      (true, { inputs with successMetrics := some [
          str "Achievement of the primary project objectives",
          str "Stakeholder satisfaction beating target thresholds",
          str "On-time delivery of critical milestones" ] })
    else (false, inputs)
  else if field = str "keyPartners" then
    if optListNeedy inputs.keyPartners then
      (true, { inputs with keyPartners := some [
          str "Executive sponsor or leadership champion",
          str "Core delivery team or PMO",
          str "Key external collaborators or vendors" ] })
    else (false, inputs)
  else if field = str "requirements" then
    if optListNeedy inputs.requirements then
      (true, { inputs with requirements := some [
          str "Detailed functional and non-functional requirements to be confirmed with stakeholders." ] })
    else (false, inputs)
  else (false, inputs)

/-- `applyAssumptionsIfRequested` from `user-intake.ts`: walk the blueprint
in order, defaulting every entry still flagged `followUpNeeded`, collecting
the fields actually filled (in `Set` insertion order). -/
def applyAssumptionsIfRequested (inputs : UserInputs) : List Str × UserInputs :=
  CLARITY_BLUEPRINT.foldl (fun (acc : List Str × UserInputs) entry =>
    if entry.followUpNeeded acc.2 then
      let r := applyAssumptionForField entry.field acc.2
      (if r.1 then acc.1 ++ [entry.field] else acc.1, r.2)
    else acc) ([], inputs)

/-- `ClarifyingQuestion.status` values. -/
inductive QuestionStatus
  | pending
  | answered
  | assumed
deriving DecidableEq

/-- `ClarifyingQuestion` from `concept-note-state.ts` (the `field` is the
string key it clarifies). -/
structure ClarifyingQuestion where
  id : Str
  field : Str
  question : Str
  rationale : Str
  required : Bool
  status : QuestionStatus
  timesAsked : ℕ
  lastAskedAt : Str
  assumptionSuggestion : Option Str
deriving DecidableEq

/-- The question-selection loop at the end of `prepareClarifyingQuestions`
(walk pending questions; surface never-asked or required ones; stop at the
cap). -/
def pickQuestionsToAsk (now : Str) : List ClarifyingQuestion → ℕ → List ClarifyingQuestion
  | [], _ => []
  | q :: rest, count =>
    match blueprintLookup q.field with
    | none => pickQuestionsToAsk now rest count
    | some bp =>
      if q.timesAsked = 0 || bp.required then
        let q' := { q with timesAsked := q.timesAsked + 1, lastAskedAt := now }
        if count + 1 ≥ MAX_QUESTIONS_PER_PROMPT then [q']
        else q' :: pickQuestionsToAsk now rest (count + 1)
      else pickQuestionsToAsk now rest count

/-- `prepareClarifyingQuestions` from `user-intake.ts`.  `now` is the turn
timestamp and `uuid` supplies the `uuidv4()` fragment of a fresh question
id.  Returns `(updatedQuestions, questionsToAsk)`. -/
def prepareClarifyingQuestions (existingQuestions : Option (List ClarifyingQuestion))
    (inputs : UserInputs) (assumedFields : List Str) (now : Str) (uuid : Str → Str) :
    List ClarifyingQuestion × List ClarifyingQuestion :=
  let questionMap0 := (existingQuestions.getD []).foldl (fun m q => recSet m q.field q) []
  let questionMap1 := CLARITY_BLUEPRINT.foldl (fun m entry =>
    let questionKey := entry.field
    let existing := recGet m questionKey
    if entry.followUpNeeded inputs then
      match existing with
      | some q => recSet m questionKey { q with status := QuestionStatus.pending }
      | none => recSet m questionKey
          { id := str "clarify-" ++ questionKey ++ str "-" ++ uuid questionKey
            field := questionKey
            question := entry.question
            rationale := entry.rationale
            required := entry.required
            status := QuestionStatus.pending
            timesAsked := 0
            lastAskedAt := now
            assumptionSuggestion := entry.assumptionSuggestion }
    else
      match existing with
      | some q =>
        let status :=
          if questionKey ∈ assumedFields then QuestionStatus.assumed
          else QuestionStatus.answered
        recSet m questionKey { q with status := status }
      | none => m) questionMap0
  let pendingQuestions := insSortBy
    (fun a b =>
      let priorityA := blueprintPriority a.field
      let priorityB := blueprintPriority b.field
      if priorityA ≠ priorityB then decide (priorityA < priorityB)
      else decide (a.timesAsked ≤ b.timesAsked))
    ((questionMap1.map Prod.snd).filter (fun q => q.status = QuestionStatus.pending))
  let questionsToAsk := pickQuestionsToAsk now pendingQuestions 0
  let questionMap2 := questionsToAsk.foldl (fun m q => recSet m q.field q) questionMap1
  (questionMap2.map Prod.snd, questionsToAsk)

/-- `mergeStringLists` from `user-intake.ts`. -/
def mergeStringLists (existing incoming : Option (List Str)) : Option (List Str) :=
  let combined := ((existing.getD []) ++ (incoming.getD [])).map trim
  let filtered := combined.filter (fun item => item.length > 0)
  let unique := dedupFirst filtered
  if unique.length > 0 then some unique else existing

/-- Spread-merge of the `outputPreferences` objects. -/
def mergeOutputPreferences (e u : Option OutputPreferences) : OutputPreferences :=
  let eo := e.getD { format := none, length := none, includeVisuals := none }
  let uo := u.getD { format := none, length := none, includeVisuals := none }
  { format := match uo.format with | some f => some f | none => eo.format
    length := match uo.length with | some l => some l | none => eo.length
    includeVisuals := match uo.includeVisuals with | some b => some b | none => eo.includeVisuals }

/-- `mergeUserInputs` from `user-intake.ts`: truthy scalar updates
overwrite, list updates union-and-dedupe via `mergeStringLists` (against
the original `existing`, as in the source). -/
def mergeUserInputs (existing updates : UserInputs) : UserInputs :=
  let m1 := if optStrTruthy updates.title then { existing with title := updates.title } else existing
  let m2 := if optStrTruthy updates.description then { m1 with description := updates.description } else m1
  let m3 := if optStrTruthy updates.targetAudience then { m2 with targetAudience := updates.targetAudience } else m2
  let m4 := if optStrTruthy updates.budget then { m3 with budget := updates.budget } else m3
  let m5 := if optStrTruthy updates.timeline then { m4 with timeline := updates.timeline } else m4
  let m6 := if optStrTruthy updates.scope then { m5 with scope := updates.scope } else m5
  let m7 := if updates.requirements.isSome then
      { m6 with requirements := mergeStringLists existing.requirements updates.requirements } else m6
  let m8 := if updates.objectives.isSome then
      { m7 with objectives := mergeStringLists existing.objectives updates.objectives } else m7
  let m9 := if updates.keyActivities.isSome then
      { m8 with keyActivities := mergeStringLists existing.keyActivities updates.keyActivities } else m8
  let m10 := if updates.keyChallenges.isSome then
      { m9 with keyChallenges := mergeStringLists existing.keyChallenges updates.keyChallenges } else m9
  let m11 := if updates.successMetrics.isSome then
      { m10 with successMetrics := mergeStringLists existing.successMetrics updates.successMetrics } else m10
  let m12 := if updates.keyPartners.isSome then
      { m11 with keyPartners := mergeStringLists existing.keyPartners updates.keyPartners } else m11
  if updates.outputPreferences.isSome then
    let op := mergeOutputPreferences existing.outputPreferences updates.outputPreferences
    { m12 with outputPreferences := some op }
  else m12

/-- The state-relevant result of one `userIntakeNode` turn. -/
structure IntakeOutcome where
  userInputs : UserInputs
  updatedQuestions : List ClarifyingQuestion
  questionsToAsk : List ClarifyingQuestion
  assumedFields : List Str
  needsUserIntervention : Bool

/-- The per-turn pipeline of `userIntakeNode` from `user-intake.ts`
(after a human message was found): merge the extractor output
(`parsedInputs`, the result of `extractUserInputsFromContent` — an
external extraction capability per spec §1) into the state inputs, apply
assumptions when the message requests them, recompute the clarifying
questions, and surface up to the cap.  The turn asks the user again
(intervention) exactly when `questionsToAsk` is non-empty. -/
def userIntakeStep (stateInputs : Option UserInputs)
    (stateQuestions : Option (List ClarifyingQuestion)) (parsedInputs : UserInputs)
    (userContent : Str) (now : Str) (uuid : Str → Str) : IntakeOutcome :=
  let existingInputs := stateInputs.getD emptyInputs
  let mergedInputs := mergeUserInputs existingInputs parsedInputs
  let userRequestedAssumptions := didUserRequestAssumptions userContent
  let applied :=
    if userRequestedAssumptions then applyAssumptionsIfRequested mergedInputs
    else ([], mergedInputs)
  let prepared := prepareClarifyingQuestions stateQuestions applied.2 applied.1 now uuid
  { userInputs := applied.2
    updatedQuestions := prepared.1
    questionsToAsk := prepared.2
    assumedFields := applied.1
    needsUserIntervention := decide (prepared.2.length > 0) }

-- ### Concrete fixtures used by witnesses and counterexamples

/-- The Scenario D user message. -/
def scenarioDMessage : Str := str "you can assume the rest and proceed"

/-- Scenario D turn: fresh session (no inputs, no tracked questions), the
extractor returns nothing, the user message asks to proceed with
assumptions. -/
def scenarioDOutcome : IntakeOutcome :=
  userIntakeStep none none emptyInputs scenarioDMessage
    (str "2024-01-01T00:00:00.000Z") (fun _ => str "uuid-1")

/-- A minimal document definition with no fields or questions. -/
def emptyDefinition : DocumentDefinition :=
  { id := str "prd"
    name := str "PRD"
    description := str "Product requirements document"
    stage_hint := none
    template := str "prd"
    template_markdown := none
    prerequisites := none
    required_fields := []
    optional_fields := []
    diagnostic_questions := []
    research_prompts := none }

/-- A raw catalog whose only diagnostic question targets the field id
`ghost`, which is declared neither required nor optional. -/
def ghostTargetCatalogRaw : DocCatalogRaw :=
  { doc_types := some
      [ { id := str "prd"
          name := str "PRD"
          description := str "Product requirements document"
          stage_hint := none
          template := str "prd"
          pre_requisites_documents := none
          document_template := none
          required_fields :=
            [ { id := str "overview", label := str "Overview"
                description := str "What are we building", weight := none } ]
          optional_fields := none
          diagnostic_questions :=
            some [ { id := str "q1", text := str "Describe the ghost field"
                     targets := [str "ghost"] } ]
          research_prompts := none } ] }

-- ### C7: assumption injection (Scenario D)

/-- C7 (counterexample).  Scenario D as claimed is false on the code: the
message "you can assume the rest and proceed" does request assumptions, yet
the turn surfaces one clarifying question (for `description`, which is
still flagged `followUpNeeded` but has no case in `applyAssumptionForField`
and thus receives no default), not zero. -/
theorem scenarioD_surfaces_a_question :
    didUserRequestAssumptions scenarioDMessage = true ∧
    scenarioDOutcome.questionsToAsk.length = 1 ∧
    scenarioDOutcome.userInputs.description = none ∧
    ((CLARITY_BLUEPRINT.find? (fun e => e.field = str "description")).all
      (fun e => e.followUpNeeded scenarioDOutcome.userInputs)) = true := by
  decide

/-- C7 (amended).  In Scenario D every blueprint entry still flagged
`followUpNeeded` that has a default case in `applyAssumptionForField` — all
of them except `description` — receives its documented default value; the
`description` entry has no default, stays pending, and is the single
clarifying question surfaced that turn; no tracked question is marked
`assumed` because a fresh session tracks none. -/
theorem scenarioD_defaults_all_but_description :
    scenarioDOutcome.assumedFields =
      [str "title", str "objectives", str "targetAudience", str "timeline", str "budget",
       str "scope", str "keyActivities", str "keyChallenges", str "successMetrics",
       str "keyPartners"] ∧
    scenarioDOutcome.userInputs.title = some (str "Strategic Concept Note Initiative") ∧
    scenarioDOutcome.userInputs.description = none ∧
    scenarioDOutcome.userInputs.targetAudience = some (str "General stakeholders (assumed)") ∧
    scenarioDOutcome.userInputs.timeline = some (str "Approximately 6–12 months (assumed)") ∧
    scenarioDOutcome.userInputs.budget =
      some (str "Budget to be confirmed during planning (assumed)") ∧
    scenarioDOutcome.userInputs.scope = some (str "Local or regional focus (assumed)") ∧
    scenarioDOutcome.userInputs.objectives = some (suggestObjectives emptyInputs) ∧
    scenarioDOutcome.userInputs.keyActivities = some
      [ str "Discovery and requirements workshops",
        str "Pilot implementation of the core solution",
        str "Evaluation and scale-up planning" ] ∧
    scenarioDOutcome.userInputs.keyChallenges = some
      [ str "Stakeholder alignment and change management",
        str "Resource availability and budget approvals",
        str "Data, compliance, or policy considerations" ] ∧
    scenarioDOutcome.userInputs.successMetrics = some
      [ str "Achievement of the primary project objectives",
        str "Stakeholder satisfaction beating target thresholds",
        str "On-time delivery of critical milestones" ] ∧
    scenarioDOutcome.userInputs.keyPartners = some
      [ str "Executive sponsor or leadership champion",
        str "Core delivery team or PMO",
        str "Key external collaborators or vendors" ] ∧
    scenarioDOutcome.questionsToAsk.map (fun q => q.field) = [str "description"] ∧
    scenarioDOutcome.updatedQuestions.map (fun q => (q.field, q.status, q.timesAsked)) =
      [(str "description", QuestionStatus.pending, 1)] ∧
    (scenarioDOutcome.updatedQuestions.filter
      (fun q => q.status = QuestionStatus.assumed)) = [] := by
  decide

-- ### C3: idempotence of message processing

/-- C3.  An already-processed message id short-circuits both per-turn
updates: if the latest human message's deterministic id is in
`processedMessageIds`, `processDocSessionMessages` returns the session
unchanged, and if a message's id (explicit or `type-index` fallback) is in
`processedMessageIds`, `updateSessionFromMessage` returns the session
unchanged — answers, dossier, pendingQuestions and all. -/
theorem processed_message_is_idempotent
    (jsonDetails : Str → Option ProjectUserDetails) (now : ℕ)
    (session : DocSessionState) (messages : List BaseMessage)
    (m : BaseMessage) (mid : Str)
    (hm : latestHumanMessage messages = some m)
    (hid : getDeterministicMessageId m = some mid)
    (hmem : mid ∈ session.processedMessageIds)
    (session2 : DocSessionState) (msg2 : BaseMessage) (idx2 : ℕ)
    (response2 : Option ExtractionResponse) (now2 : ℕ)
    (hmem2 : getMessageId msg2 idx2 ∈ session2.processedMessageIds) :
    processDocSessionMessages jsonDetails now session messages = session ∧
    updateSessionFromMessage session2 msg2 idx2 response2 now2 = session2 := by
  constructor
  · simp only [processDocSessionMessages, hm, hid, if_pos hmem]
  · simp only [updateSessionFromMessage, if_pos hmem2]

/-- Witness session for C3 and C2: a pair of processed ids, one pending
question, not ready. -/
def witnessSessionA : DocSessionState :=
  { active := true
    docType := str "prd"
    definition := emptyDefinition
    answers := []
    dossier := []
    pendingQuestions := []
    researchPlan := []
    citations := []
    confidence := 0
    readyToGenerate := false
    template := str "prd"
    title := str "PRD Draft"
    processedMessageIds := [str "m1", str "m2"]
    lastAskedQuestionId := none }

/-- The witness message carrying the already-processed id `m1`. -/
def witnessMsgM1 : BaseMessage :=
  { role := str "human", id := some (str "m1"), kwargsId := none,
    additionalKwargsId := none, content := str "hello again" }

/-- The witness message carrying the already-processed id `m2`. -/
def witnessMsgM2 : BaseMessage :=
  { role := str "human", id := some (str "m2"), kwargsId := none,
    additionalKwargsId := none, content := str "hello again" }

/-- C3 (witness): both guards, exercised on concrete inputs. -/
theorem processed_message_is_idempotent_witness :
    processDocSessionMessages (fun _ => none) 1700000000000 witnessSessionA [witnessMsgM1]
      = witnessSessionA ∧
    updateSessionFromMessage witnessSessionA witnessMsgM2 0 none 1700000000000
      = witnessSessionA :=
  processed_message_is_idempotent (fun _ => none) 1700000000000 witnessSessionA
    [witnessMsgM1] witnessMsgM1 (str "m1") rfl rfl (by decide)
    witnessSessionA witnessMsgM2 0 none 1700000000000 (by decide)

-- ### C5: catalog loading

/-- C5 (counterexample).  The loader accepts a catalog whose diagnostic
question targets the undeclared field id `ghost`: the load succeeds, while
the claim says it must fail with a load error. -/
theorem catalog_load_accepts_undeclared_target :
    (loadDocumentCatalog (some ghostTargetCatalogRaw)).isOk = true ∧
    (match loadDocumentCatalog (some ghostTargetCatalogRaw) with
     | .ok catalog =>
       (recGet catalog (str "prd")).any (fun d =>
         d.diagnostic_questions.any (fun q =>
           q.targets.any (fun t =>
             !((d.required_fields ++ d.optional_fields).map (fun f => f.id)).contains t)))
     | .error _ => false) = true := by
  decide

/-- C5 (amended).  Catalog load fails exactly when the parsed source is
falsy or its `doc_types` is missing / not an array; question targets are
not validated, and any catalog with a `doc_types` array loads into an
id-keyed map with one (normalised) definition per doc type. -/
theorem catalog_load_characterization (parsed : Option DocCatalogRaw) :
    ((loadDocumentCatalog parsed).isOk = true ↔
      ∃ cat docs, parsed = some cat ∧ cat.doc_types = some docs) ∧
    (∀ cat docs, parsed = some cat → cat.doc_types = some docs →
      loadDocumentCatalog parsed =
        .ok (mapFromEntries (docs.map (fun doc => (doc.id, normalizeRawDocument doc))))) := by
  constructor
  · constructor
    · intro h
      cases parsed with
      | none => simp [loadDocumentCatalog, Except.isOk, Except.toBool] at h
      | some cat =>
        cases hd : cat.doc_types with
        | none =>
          simp only [loadDocumentCatalog, hd] at h
          simp [Except.isOk, Except.toBool] at h
        | some docs => exact ⟨cat, docs, rfl, hd⟩
    · rintro ⟨cat, docs, hp, hd⟩
      subst hp
      simp [loadDocumentCatalog, hd, Except.isOk, Except.toBool]
  · rintro cat docs rfl hd
    simp [loadDocumentCatalog, hd]

/-- C5 (witness): the characterization applied to the concrete catalog with
an undeclared question target — it loads, into a one-entry map. -/
theorem catalog_load_characterization_witness :
    loadDocumentCatalog (some ghostTargetCatalogRaw) =
      .ok (mapFromEntries
        ((ghostTargetCatalogRaw.doc_types.getD []).map
          (fun doc => (doc.id, normalizeRawDocument doc)))) :=
  (catalog_load_characterization (some ghostTargetCatalogRaw)).2
    ghostTargetCatalogRaw ((ghostTargetCatalogRaw.doc_types).getD []) rfl rfl

-- ### C6: the Question Planner

/-- Fold-with-addition is summing the mapped list. -/
theorem foldl_add_eq_sum (g : α → ℚ) (l : List α) (a : ℚ) :
    l.foldl (fun acc x => acc + g x) a = a + (l.map g).sum := by
  induction l generalizing a with
  | nil => simp
  | cons x xs ih => simp [ih, add_assoc]

/-- Looking up a key in a map built by repeated `recSet`: the last write for
that key wins (first in the reversed write list). -/
theorem recGet_foldl_recSet (key : β → Str) (val : β → α) (l : List β)
    (m0 : List (Str × α)) (fid : Str) :
    recGet (l.foldl (fun m f => recSet m (key f) (val f)) m0) fid =
      match l.reverse.find? (fun f => key f = fid) with
      | some f => some (val f)
      | none => recGet m0 fid := by
  induction l generalizing m0 with
  | nil => simp
  | cons f rest ih =>
    simp only [List.foldl_cons, List.reverse_cons, List.find?_append]
    rw [ih]
    cases hr : rest.reverse.find? (fun f => decide (key f = fid)) with
    | some g => simp
    | none =>
      simp only [Option.none_or]
      by_cases hk : key f = fid
      · have h1 : List.find? (fun g => decide (key g = fid)) [f] = some f := by
          simp [hk]
        rw [h1]
        simp [← hk, recGet_set_eq]
      · have h1 : List.find? (fun g => decide (key g = fid)) [f] = none := by
          simp [hk]
        rw [h1]
        simp [recGet_set_ne _ _ _ _ (fun hh => hk hh.symm)]

/-- When the keys are duplicate-free, searching the reversed list finds the
same (unique) element as searching forward. -/
theorem find?_reverse_of_nodup (key : β → Str) (l : List β)
    (hnd : (l.map key).Nodup) (fid : Str) :
    l.reverse.find? (fun f => key f = fid) = l.find? (fun f => key f = fid) := by
  induction l with
  | nil => rfl
  | cons f rest ih =>
    simp only [List.map_cons, List.nodup_cons] at hnd
    obtain ⟨hnotin, hnd'⟩ := hnd
    simp only [List.reverse_cons, List.find?_append, ih hnd']
    by_cases hk : key f = fid
    · have hnone : List.find? (fun g => decide (key g = fid)) rest = none := by
        rw [List.find?_eq_none]
        intro g hg hpg
        exact hnotin (by
          rw [List.mem_map]
          exact ⟨g, hg, by simpa [hk] using hpg⟩)
      have h1 : List.find? (fun g => decide (key g = fid)) [f] = some f := by
        simp [hk]
      have h2 : List.find? (fun g => decide (key g = fid)) (f :: rest) = some f := by
        simp [hk]
      rw [hnone, h1, h2]
      rfl
    · have h1 : List.find? (fun g => decide (key g = fid)) [f] = none := by
        simp [hk]
      have h2 : List.find? (fun g => decide (key g = fid)) (f :: rest)
          = List.find? (fun g => decide (key g = fid)) rest := by
        simp [hk]
      rw [h1, h2]
      simp

/-- The field weight exactly as the spec's Question Planner describes it:
a required field's declared weight (default 1), an optional field's
declared weight (default 0.5), and 0.5 for an undeclared target.
Spec-side definition, for comparison against `materializeQuestionPlan`. -/
def specFieldWeight (definition : DocumentDefinition) (fieldId : Str) : ℚ :=
  match definition.required_fields.find? (fun f => f.id = fieldId) with
  | some f => f.weight.getD 1
  | none =>
    match definition.optional_fields.find? (fun f => f.id = fieldId) with
    | some f => f.weight.getD (1/2)
    | none => 1/2

/-- The coverage-weight map agrees with the spec's per-field weight when
field ids are duplicate-free and required/optional ids are disjoint. -/
theorem coverageWeights_lookup (definition : DocumentDefinition)
    (hdisj : ∀ f1 ∈ definition.required_fields, ∀ f2 ∈ definition.optional_fields,
      f1.id ≠ f2.id)
    (hreq : (definition.required_fields.map (fun f => f.id)).Nodup)
    (hopt : (definition.optional_fields.map (fun f => f.id)).Nodup) (fid : Str) :
    (recGet (coverageWeights definition) fid).getD (1/2) = specFieldWeight definition fid := by
  unfold coverageWeights specFieldWeight
  rw [recGet_foldl_recSet (fun f : RequirementSpec => f.id) (fun f => f.weight.getD (1/2)),
    find?_reverse_of_nodup _ _ hopt]
  cases hO : definition.optional_fields.find? (fun f => decide (f.id = fid)) with
  | some g =>
    have hgmem := List.mem_of_find?_eq_some hO
    have hgid : g.id = fid := by simpa using List.find?_some hO
    have hR : List.find? (fun f => decide (f.id = fid)) definition.required_fields = none := by
      rw [List.find?_eq_none]
      intro f hf hpf
      exact hdisj f hf g hgmem (by rw [hgid]; simpa using hpf)
    rw [hR]
    simp
  | none =>
    rw [recGet_foldl_recSet (fun f : RequirementSpec => f.id) (fun f => f.weight.getD 1),
      find?_reverse_of_nodup _ _ hreq]
    cases hR : List.find? (fun f => decide (f.id = fid)) definition.required_fields with
    | some f => simp
    | none => simp [recGet]

/-- C6.  For duplicate-free, disjoint field declarations, the Question
Planner emits exactly one item per diagnostic question, in catalog order
(not sorted), with priority = Σ (target weights per the spec: required
default 1, optional default 0.5) + 1/(1+index). -/
theorem question_plan_matches_spec (definition : DocumentDefinition)
    (hdisj : ∀ f1 ∈ definition.required_fields, ∀ f2 ∈ definition.optional_fields,
      f1.id ≠ f2.id)
    (hreq : (definition.required_fields.map (fun f => f.id)).Nodup)
    (hopt : (definition.optional_fields.map (fun f => f.id)).Nodup) :
    materializeQuestionPlan definition =
      definition.diagnostic_questions.enum.map (fun p =>
        { id := p.2.id
          text := p.2.text
          targets := p.2.targets
          priority := (p.2.targets.map (specFieldWeight definition)).sum
            + 1 / (p.1 + 1 : ℚ) }) := by
  unfold materializeQuestionPlan
  apply List.map_congr_left
  intro p _
  have hsum : p.2.targets.foldl
      (fun acc fieldId => acc + (recGet (coverageWeights definition) fieldId).getD (1/2)) 0 =
      (p.2.targets.map (specFieldWeight definition)).sum := by
    rw [foldl_add_eq_sum (fun fieldId => (recGet (coverageWeights definition) fieldId).getD (1/2))]
    rw [zero_add]
    congr 1
    apply List.map_congr_left
    intro fid _
    exact coverageWeights_lookup definition hdisj hreq hopt fid
  simp only [hsum]

/-- Witness document definition for the planner: one required field, no
optional fields, one question targeting it. -/
def planWitnessDefinition : DocumentDefinition :=
  { emptyDefinition with
      required_fields :=
        [ { id := str "overview", label := str "Overview"
            description := str "What are we building", weight := none, required := true } ]
      diagnostic_questions :=
        [ { id := str "q1", text := str "What is the overview?", targets := [str "overview"] } ] }

/-- C6 (witness): the planner theorem instantiated at a concrete
definition; the single question gets priority 1 (required weight) + 1
(tie-breaker 1/(1+0)) = 2. -/
theorem question_plan_matches_spec_witness :
    materializeQuestionPlan planWitnessDefinition =
      [ { id := str "q1", text := str "What is the overview?", targets := [str "overview"],
          priority := 2 } ] := by
  rw [question_plan_matches_spec planWitnessDefinition (by decide) (by decide) (by decide)]
  have h1 : specFieldWeight planWitnessDefinition (str "overview") = 1 := rfl
  have h2 : planWitnessDefinition.diagnostic_questions.enum =
      [(0, { id := str "q1", text := str "What is the overview?",
             targets := [str "overview"] : QuestionSpec })] := rfl
  rw [h2, List.map_cons, List.map_nil]
  simp [h1]
  norm_num

-- ### C4 / C8: the Confidence Scorer

theorem computeConfidence_completeness_def (d : DocumentDefinition) (ds : List (Str × Str))
    (cs : List Citation) :
    (computeConfidence d ds cs).completeness =
      (if d.required_fields.foldl (fun acc f => acc + f.weight.getD 1) (0:ℚ) = 0 then (0:ℚ)
       else (d.required_fields.filter (fun f => dossierNonBlank (recGet ds f.id))).foldl
              (fun acc f => acc + f.weight.getD 1) (0:ℚ)
            / d.required_fields.foldl (fun acc f => acc + f.weight.getD 1) (0:ℚ)) := rfl

theorem computeConfidence_missingRequired_def (d : DocumentDefinition) (ds : List (Str × Str))
    (cs : List Citation) :
    (computeConfidence d ds cs).missingRequired =
      d.required_fields.filter (fun f => !dossierNonBlank (recGet ds f.id)) := rfl

theorem computeConfidence_evidence_def (d : DocumentDefinition) (ds : List (Str × Str))
    (cs : List Citation) :
    (computeConfidence d ds cs).evidence =
      (if ((d.required_fields ++ d.optional_fields).filter
            (fun f => dossierTruthy (recGet ds f.id))).length = 0 then (0:ℚ)
       else ((d.required_fields ++ d.optional_fields).foldl (fun acc f =>
          if !dossierTruthy (recGet ds f.id) then acc
          else acc + (if (recGet (citationsByField cs) f.id).isSome then 1 else 0)) (0:ℚ))
         / (((d.required_fields ++ d.optional_fields).filter
            (fun f => dossierTruthy (recGet ds f.id))).length : ℚ)) := rfl

theorem computeConfidence_clarity_def (d : DocumentDefinition) (ds : List (Str × Str))
    (cs : List Citation) :
    (computeConfidence d ds cs).clarity =
      1 - (ds.foldl (fun acc kv =>
            if kv.2.isEmpty then acc + 1
            else if isPlaceholderValue kv.2 then acc + 1 else acc) (0 : ℚ))
        / ((if ds.length = 0 then 1 else ds.length : ℕ) : ℚ) := rfl

theorem computeConfidence_overall_def (d : DocumentDefinition) (ds : List (Str × Str))
    (cs : List Citation) :
    (computeConfidence d ds cs).overall =
      roundTo3 (0.5 * (computeConfidence d ds cs).completeness
        + 0.3 * (computeConfidence d ds cs).evidence
        + 0.2 * (computeConfidence d ds cs).clarity) := rfl

/-- Sum facts for a positively-weighted field list: the filtered weight sum
is bounded by the total, reaches the total exactly on the full list and 0
exactly on the empty selection. -/
theorem filtered_weight_sum (p : RequirementSpec → Bool) (fields : List RequirementSpec)
    (hpos : ∀ f ∈ fields, 0 < f.weight.getD 1) :
    0 ≤ ((fields.filter p).map (fun f => f.weight.getD 1)).sum ∧
    ((fields.filter p).map (fun f => f.weight.getD 1)).sum
      ≤ (fields.map (fun f => f.weight.getD 1)).sum ∧
    (((fields.filter p).map (fun f => f.weight.getD 1)).sum
        = (fields.map (fun f => f.weight.getD 1)).sum ↔ ∀ f ∈ fields, p f = true) ∧
    (((fields.filter p).map (fun f => f.weight.getD 1)).sum = 0 ↔
      ∀ f ∈ fields, p f = false) ∧
    (fields = [] ∨ 0 < (fields.map (fun f => f.weight.getD 1)).sum) := by
  induction fields with
  | nil => simp
  | cons f rest ih =>
    have hwf : 0 < f.weight.getD 1 := hpos f (List.mem_cons_self f rest)
    obtain ⟨ih0, ih1, ih2, ih3, ih4⟩ := ih (fun g hg => hpos g (List.mem_cons_of_mem f hg))
    have htpos : 0 < ((f :: rest).map (fun f => f.weight.getD 1)).sum := by
      simp only [List.map_cons, List.sum_cons]
      rcases ih4 with h | h
      · subst h; simpa using hwf
      · linarith
    by_cases hp : p f = true
    · simp only [List.filter_cons, hp, if_pos, List.map_cons, List.sum_cons]
      refine ⟨by linarith, by linarith, ?_, ?_, Or.inr htpos⟩
      · constructor
        · intro h
          intro g hg
          rcases List.mem_cons.1 hg with rfl | hg'
          · exact hp
          · exact ih2.1 (by linarith) g hg'
        · intro h
          have := ih2.2 (fun g hg => h g (List.mem_cons_of_mem f hg))
          linarith
      · constructor
        · intro h
          exact absurd h (by positivity)
        · intro h
          exact absurd (h f (List.mem_cons_self f rest)) (by simp [hp])
    · have hpf : p f = false := by simpa using hp
      simp only [List.filter_cons, hpf, Bool.false_eq_true, if_neg, List.map_cons,
        List.sum_cons, if_false]
      refine ⟨ih0, by linarith, ?_, ?_, Or.inr htpos⟩
      · constructor
        · intro h
          have : (rest.map (fun f => f.weight.getD 1)).sum
              < f.weight.getD 1 + (rest.map (fun f => f.weight.getD 1)).sum := by linarith
          linarith [ih1]
        · intro h
          exact absurd (h f (List.mem_cons_self f rest)) (by simp [hpf])
      · constructor
        · intro h
          intro g hg
          rcases List.mem_cons.1 hg with rfl | hg'
          · exact hpf
          · exact ih3.1 h g hg'
        · intro h
          exact ih3.2 (fun g hg => h g (List.mem_cons_of_mem f hg))

/-- C4 (amended).  With every required-field weight positive (the loader
defaults a missing weight to 1), completeness is within [0,1]; it is 1 iff
there is at least one required field and all of them are non-blank in the
dossier, and 0 iff there are no required fields or none is non-blank. -/
theorem completeness_bounds (definition : DocumentDefinition) (dossier : List (Str × Str))
    (citations : List Citation)
    (hpos : ∀ f ∈ definition.required_fields, 0 < f.weight.getD 1) :
    (0 ≤ (computeConfidence definition dossier citations).completeness ∧
      (computeConfidence definition dossier citations).completeness ≤ 1) ∧
    ((computeConfidence definition dossier citations).completeness = 1 ↔
      (definition.required_fields ≠ [] ∧
        ∀ f ∈ definition.required_fields, dossierNonBlank (recGet dossier f.id) = true)) ∧
    ((computeConfidence definition dossier citations).completeness = 0 ↔
      (definition.required_fields = [] ∨
        ∀ f ∈ definition.required_fields, dossierNonBlank (recGet dossier f.id) = false)) := by
  have hc := computeConfidence_completeness_def definition dossier citations
  rw [foldl_add_eq_sum, foldl_add_eq_sum, zero_add, zero_add] at hc
  obtain ⟨h0, h1, h2, h3, h4⟩ :=
    filtered_weight_sum (fun f => dossierNonBlank (recGet dossier f.id))
      definition.required_fields hpos
  rcases h4 with hnil | hpos'
  · have htot : (definition.required_fields.map (fun f => f.weight.getD 1)).sum = 0 := by
      rw [hnil]; simp
    rw [htot, if_pos rfl] at hc
    rw [hc]
    refine ⟨⟨le_refl 0, by norm_num⟩, ?_, ?_⟩
    · simp only [hnil]
      norm_num
    · simp [hnil]
  · have htot : ¬ (definition.required_fields.map (fun f => f.weight.getD 1)).sum = 0 :=
      ne_of_gt hpos'
    have hne : definition.required_fields ≠ [] := by
      intro h
      rw [h] at hpos'
      simp at hpos'
    rw [if_neg htot] at hc
    rw [hc]
    refine ⟨⟨div_nonneg h0 (le_of_lt hpos'), (div_le_one hpos').2 h1⟩, ?_, ?_⟩
    · rw [div_eq_one_iff_eq (ne_of_gt hpos')]
      rw [h2]
      simp [hne]
    · rw [div_eq_zero_iff]
      simp only [htot, or_false]
      rw [h3]
      simp [hne]

/-- A definition whose single required field has declared weight 0 — the
shape on which the claimed completeness characterisation fails. -/
def zeroWeightDefinition : DocumentDefinition :=
  { emptyDefinition with
      required_fields :=
        [ { id := str "f", label := str "F", description := str "The field",
            weight := some 0, required := true } ] }

/-- C4 (counterexample).  For a required field of declared weight 0 that IS
filled, completeness evaluates to 0 — not 1 as the claim's "equals 1 iff
every required field is non-blank" demands, and 0 even though a required
field is non-blank and required fields exist. -/
theorem completeness_zero_weight_counterexample :
    (computeConfidence zeroWeightDefinition [(str "f", str "filled")] []).completeness = 0 ∧
    zeroWeightDefinition.required_fields ≠ [] ∧
    (∀ f ∈ zeroWeightDefinition.required_fields,
      dossierNonBlank (recGet [(str "f", str "filled")] f.id) = true) := by
  refine ⟨?_, List.cons_ne_nil _ _, by decide⟩
  rw [computeConfidence_completeness_def]
  have htot : zeroWeightDefinition.required_fields.foldl
      (fun acc f => acc + f.weight.getD 1) (0:ℚ) = 0 := by
    show (0 : ℚ) + ((some (0:ℚ)).getD 1) = 0
    norm_num
  rw [htot, if_pos rfl]

/-- The evidence numerator fold contributes nothing when there are no
citations. -/
theorem evidence_fold_zero_of_no_citations (ds : List (Str × Str))
    (l : List RequirementSpec) (acc : ℚ) :
    l.foldl (fun acc f =>
      if !dossierTruthy (recGet ds f.id) then acc
      else acc + (if (recGet (citationsByField []) f.id).isSome then 1 else 0)) acc = acc := by
  induction l generalizing acc with
  | nil => rfl
  | cons f rest ih =>
    simp only [List.foldl_cons]
    rw [show recGet (citationsByField []) f.id = none from rfl]
    simp only [Option.isSome_none, Bool.false_eq_true, if_false, add_zero, ite_self]
    exact ih acc

/-- The unclear-count fold stays at its accumulator when every dossier
value is non-blank and placeholder-free. -/
theorem unclear_fold_zero (ds : List (Str × Str))
    (hvals : ∀ kv ∈ ds, (kv.2 : Str) ≠ [] ∧ isPlaceholderValue kv.2 = false) (acc : ℚ) :
    ds.foldl (fun acc kv =>
      if kv.2.isEmpty then acc + 1
      else if isPlaceholderValue kv.2 then acc + 1 else acc) acc = acc := by
  induction ds generalizing acc with
  | nil => rfl
  | cons kv rest ih =>
    obtain ⟨hne, hph⟩ := hvals kv (List.mem_cons_self kv rest)
    simp only [List.foldl_cons]
    rw [if_neg (by simpa using hne), if_neg (by simp [hph])]
    exact ih (fun g hg => hvals g (List.mem_cons_of_mem kv hg)) acc

/-- C8.  For any definition with required fields (positive weights) all
filled in the dossier, no citations, and no blank or placeholder dossier
values: completeness is 1, evidence 0, clarity 1, and the overall score is
exactly 0.5·1 + 0.3·0 + 0.2·1 = 0.7 — the 3-decimal rounding of the
weighted sum — which is below the 0.75 readiness threshold. -/
theorem scorer_all_filled_no_citations (definition : DocumentDefinition)
    (dossier : List (Str × Str))
    (hreq : definition.required_fields ≠ [])
    (hpos : ∀ f ∈ definition.required_fields, 0 < f.weight.getD 1)
    (hfill : ∀ f ∈ definition.required_fields,
      dossierNonBlank (recGet dossier f.id) = true)
    (hvals : ∀ kv ∈ dossier, (kv.2 : Str) ≠ [] ∧ isPlaceholderValue kv.2 = false) :
    (computeConfidence definition dossier []).completeness = 1 ∧
    (computeConfidence definition dossier []).evidence = 0 ∧
    (computeConfidence definition dossier []).clarity = 1 ∧
    (computeConfidence definition dossier []).overall =
      roundTo3 (0.5 * (computeConfidence definition dossier []).completeness
        + 0.3 * (computeConfidence definition dossier []).evidence
        + 0.2 * (computeConfidence definition dossier []).clarity) ∧
    (computeConfidence definition dossier []).overall = 7/10 ∧
    (computeConfidence definition dossier []).overall < 3/4 := by
  have hcomp : (computeConfidence definition dossier []).completeness = 1 := by
    have hc := computeConfidence_completeness_def definition dossier []
    rw [foldl_add_eq_sum, foldl_add_eq_sum, zero_add, zero_add] at hc
    obtain ⟨h0, h1, h2, h3, h4⟩ :=
      filtered_weight_sum (fun f => dossierNonBlank (recGet dossier f.id))
        definition.required_fields hpos
    rcases h4 with hnil | hpos'
    · exact absurd hnil hreq
    · rw [hc, if_neg (ne_of_gt hpos'), h2.2 hfill,
        div_self (ne_of_gt hpos')]
  have hev : (computeConfidence definition dossier []).evidence = 0 := by
    rw [computeConfidence_evidence_def,
      evidence_fold_zero_of_no_citations dossier _ 0, zero_div, ite_self]
  have hcl : (computeConfidence definition dossier []).clarity = 1 := by
    rw [computeConfidence_clarity_def, unclear_fold_zero dossier hvals 0]
    norm_num
  have hov := computeConfidence_overall_def definition dossier []
  rw [hcomp, hev, hcl] at hov
  have hov7 : (computeConfidence definition dossier []).overall = 7/10 := by
    rw [hov]
    norm_num [roundTo3, round_eq]
  refine ⟨hcomp, hev, hcl, ?_, hov7, by rw [hov7]; norm_num⟩
  rw [hcomp, hev, hcl, hov]

/-- Witness dossier/definition for the C8 scenario. -/
def scorerWitnessDefinition : DocumentDefinition :=
  { emptyDefinition with
      required_fields :=
        [ { id := str "overview", label := str "Overview"
            description := str "What are we building", weight := none, required := true },
          { id := str "goals", label := str "Goals"
            description := str "Why build it", weight := some 2, required := true } ] }

/-- C8 (witness): the scenario theorem applied to a two-required-field
definition with both fields filled, no citations, no placeholders. -/
theorem scorer_all_filled_no_citations_witness :
    (computeConfidence scorerWitnessDefinition
      [(str "overview", str "Ship the MVP"), (str "goals", str "Unblock the team")] []).overall
      = 7/10 ∧
    (computeConfidence scorerWitnessDefinition
      [(str "overview", str "Ship the MVP"), (str "goals", str "Unblock the team")] []).overall
      < 3/4 := by
  have h := scorer_all_filled_no_citations scorerWitnessDefinition
    [(str "overview", str "Ship the MVP"), (str "goals", str "Unblock the team")]
    (List.cons_ne_nil _ _)
    (by
      intro f hf
      rcases List.mem_cons.1 hf with rfl | hf'
      · norm_num
      · rcases List.mem_cons.1 hf' with rfl | hf''
        · norm_num
        · simp at hf'')
    (by decide) (by decide)
  exact ⟨h.2.2.2.2.1, h.2.2.2.2.2⟩

-- ### C10: merge commutativity for list-valued blueprint fields

/-- The trimmed, non-blank items of a list (the `map(trim).filter(length>0)`
step of `mergeStringLists`). -/
def nbTrims (l : List Str) : List Str :=
  (l.map trim).filter (fun item => item.length > 0)

theorem mergeStringLists_def (e u : Option (List Str)) :
    mergeStringLists e u =
      (if (dedupFirst (nbTrims (e.getD [] ++ u.getD []))).length > 0
       then some (dedupFirst (nbTrims (e.getD [] ++ u.getD [])))
       else e) := rfl

theorem mem_nbTrims (x : Str) (l : List Str) :
    x ∈ nbTrims l ↔ (∃ t ∈ l, trim t = x) ∧ x ≠ [] := by
  simp only [nbTrims, List.mem_filter, List.mem_map, decide_eq_true_eq]
  rw [gt_iff_lt, List.length_pos]

theorem nbTrims_append (a b : List Str) : nbTrims (a ++ b) = nbTrims a ++ nbTrims b := by
  simp [nbTrims]

theorem nbTrims_nil_iff (l : List Str) : nbTrims l = [] ↔ ∀ t ∈ l, trim t = [] := by
  rw [List.eq_nil_iff_forall_not_mem]
  constructor
  · intro h t ht
    by_contra htr
    exact h (trim t) ((mem_nbTrims _ _).2 ⟨⟨t, ht, rfl⟩, htr⟩)
  · intro h x hx
    obtain ⟨⟨t, ht, htr⟩, hne⟩ := (mem_nbTrims _ _).1 hx
    exact hne (htr ▸ h t ht)

theorem dedupFirst_eq_nil_iff (l : List Str) : dedupFirst l = [] ↔ l = [] := by
  constructor
  · intro h
    cases l with
    | nil => rfl
    | cons x xs =>
      have hx : x ∈ dedupFirst (x :: xs) :=
        (mem_dedupFirst _ _).2 (List.mem_cons_self _ _)
      rw [h] at hx
      simp at hx
  · rintro rfl
    rfl

theorem mem_merge_fixpoint (l : List Str) (x : Str)
    (h : x ∈ dedupFirst (nbTrims l)) : trim x = x ∧ x ≠ [] := by
  rw [mem_dedupFirst, mem_nbTrims] at h
  obtain ⟨⟨t, _, ht⟩, hx⟩ := h
  exact ⟨by rw [← ht, trim_idem], hx⟩

theorem nbTrims_of_fixpoints (l : List Str) (h : ∀ x ∈ l, trim x = x ∧ x ≠ []) :
    nbTrims l = l := by
  induction l with
  | nil => rfl
  | cons x xs ih =>
    obtain ⟨htr, hne⟩ := h x (List.mem_cons_self _ _)
    have hrest := ih (fun y hy => h y (List.mem_cons_of_mem x hy))
    simp only [nbTrims, List.map_cons, List.filter_cons, htr] at hrest ⊢
    rw [if_pos (by simpa [List.length_pos] using hne), hrest]

/-- Membership in a single `mergeStringLists` result. -/
theorem mem_mergeStringLists (e u : Option (List Str)) (x : Str) :
    x ∈ (mergeStringLists e u).getD [] ↔
      (if nbTrims (e.getD [] ++ u.getD []) = [] then x ∈ e.getD []
       else (∃ t ∈ e.getD [] ++ u.getD [], trim t = x) ∧ x ≠ []) := by
  rw [mergeStringLists_def]
  by_cases h : nbTrims (e.getD [] ++ u.getD []) = []
  · rw [h]
    rw [if_neg (show ¬ (dedupFirst ([] : List Str)).length > 0 by decide)]
    simp
  · have hne : dedupFirst (nbTrims (e.getD [] ++ u.getD [])) ≠ [] :=
      fun hh => h ((dedupFirst_eq_nil_iff _).1 hh)
    rw [if_pos (List.length_pos.2 hne), if_neg h]
    simp only [Option.getD_some]
    rw [mem_dedupFirst, mem_nbTrims]

/-- Membership after merging twice into the same option. -/
theorem mem_merge_twice (e : Option (List Str)) (u v : List Str) (x : Str) :
    x ∈ (mergeStringLists (mergeStringLists e (some u)) (some v)).getD [] ↔
      (if nbTrims (e.getD [] ++ (u ++ v)) = [] then x ∈ e.getD []
       else (∃ t ∈ e.getD [] ++ (u ++ v), trim t = x) ∧ x ≠ []) := by
  by_cases h1 : nbTrims (e.getD [] ++ u) = []
  · have hm1 : mergeStringLists e (some u) = e := by
      rw [mergeStringLists_def]
      have : dedupFirst (nbTrims (e.getD [] ++ (some u).getD [])) = [] := by
        rw [dedupFirst_eq_nil_iff]
        exact h1
      rw [this]
      simp
    rw [hm1, mem_mergeStringLists]
    simp only [Option.getD_some]
    have hblank : ∀ t ∈ e.getD [] ++ u, trim t = [] := (nbTrims_nil_iff _).1 h1
    have hcond : (nbTrims (e.getD [] ++ v) = []) ↔ (nbTrims (e.getD [] ++ (u ++ v)) = []) := by
      rw [nbTrims_nil_iff, nbTrims_nil_iff]
      constructor
      · intro h t ht
        rcases List.mem_append.1 ht with hE | huv
        · exact h t (List.mem_append.2 (Or.inl hE))
        · rcases List.mem_append.1 huv with hu | hv
          · exact hblank t (List.mem_append.2 (Or.inr hu))
          · exact h t (List.mem_append.2 (Or.inr hv))
      · intro h t ht
        rcases List.mem_append.1 ht with hE | hv
        · exact h t (List.mem_append.2 (Or.inl hE))
        · exact h t (List.mem_append.2 (Or.inr (List.mem_append.2 (Or.inr hv))))
    by_cases h2 : nbTrims (e.getD [] ++ (u ++ v)) = []
    · rw [if_pos (hcond.2 h2), if_pos h2]
    · rw [if_neg (fun hh => h2 (hcond.1 hh)), if_neg h2]
      constructor
      · rintro ⟨⟨t, ht, htr⟩, hx⟩
        refine ⟨⟨t, ?_, htr⟩, hx⟩
        rcases List.mem_append.1 ht with hE | hv
        · exact List.mem_append.2 (Or.inl hE)
        · exact List.mem_append.2 (Or.inr (List.mem_append.2 (Or.inr hv)))
      · rintro ⟨⟨t, ht, htr⟩, hx⟩
        refine ⟨⟨t, ?_, htr⟩, hx⟩
        rcases List.mem_append.1 ht with hE | huv
        · exact List.mem_append.2 (Or.inl hE)
        · rcases List.mem_append.1 huv with hu | hv
          · exact absurd (htr.symm.trans (hblank t (List.mem_append.2 (Or.inr hu)))).symm
              (by simpa using hx)
          · exact List.mem_append.2 (Or.inr hv)
  · have hne1 : dedupFirst (nbTrims (e.getD [] ++ u)) ≠ [] :=
      fun hh => h1 ((dedupFirst_eq_nil_iff _).1 hh)
    have hm1 : mergeStringLists e (some u) = some (dedupFirst (nbTrims (e.getD [] ++ u))) := by
      rw [mergeStringLists_def]
      exact if_pos (List.length_pos.2 hne1)
    have hfix : ∀ y ∈ dedupFirst (nbTrims (e.getD [] ++ u)), trim y = y ∧ y ≠ [] :=
      fun y hy => mem_merge_fixpoint _ y hy
    have hnb1 : nbTrims (dedupFirst (nbTrims (e.getD [] ++ u))) =
        dedupFirst (nbTrims (e.getD [] ++ u)) := nbTrims_of_fixpoints _ hfix
    rw [hm1, mem_mergeStringLists]
    simp only [Option.getD_some]
    rw [nbTrims_append, hnb1]
    have hcondne : ¬ (dedupFirst (nbTrims (e.getD [] ++ u)) ++ nbTrims v = []) := by
      intro hh
      exact hne1 (List.append_eq_nil.1 hh).1
    have hcondne2 : ¬ (nbTrims (e.getD [] ++ (u ++ v)) = []) := by
      rw [nbTrims_nil_iff]
      intro hall
      apply h1
      rw [nbTrims_nil_iff]
      intro t ht
      rcases List.mem_append.1 ht with hE | hu
      · exact hall t (List.mem_append.2 (Or.inl hE))
      · exact hall t (List.mem_append.2 (Or.inr (List.mem_append.2 (Or.inl hu))))
    rw [if_neg hcondne, if_neg hcondne2]
    constructor
    · rintro ⟨⟨t, ht, htr⟩, hx⟩
      refine ⟨?_, hx⟩
      rcases List.mem_append.1 ht with hu1 | hv
      · have hxt : x = t := by rw [← htr, (hfix t hu1).1]
        have hmem := (mem_dedupFirst t _).1 hu1
        obtain ⟨⟨s, hs, hstr⟩, hne⟩ := (mem_nbTrims t _).1 hmem
        refine ⟨s, ?_, by rw [hstr, hxt]⟩
        rcases List.mem_append.1 hs with hE | hu
        · exact List.mem_append.2 (Or.inl hE)
        · exact List.mem_append.2 (Or.inr (List.mem_append.2 (Or.inl hu)))
      · exact ⟨t, List.mem_append.2 (Or.inr (List.mem_append.2 (Or.inr hv))), htr⟩
    · rintro ⟨⟨t, ht, htr⟩, hx⟩
      refine ⟨?_, hx⟩
      rcases List.mem_append.1 ht with hE | huv
      · refine ⟨x, ?_, ?_⟩
        · apply List.mem_append.2
          left
          rw [mem_dedupFirst, mem_nbTrims]
          exact ⟨⟨t, List.mem_append.2 (Or.inl hE), htr⟩, hx⟩
        · rw [← htr]
          exact trim_idem t
      · rcases List.mem_append.1 huv with hu | hv
        · refine ⟨x, ?_, ?_⟩
          · apply List.mem_append.2
            left
            rw [mem_dedupFirst, mem_nbTrims]
            exact ⟨⟨t, List.mem_append.2 (Or.inr hu), htr⟩, hx⟩
          · rw [← htr]
            exact trim_idem t
        · exact ⟨t, List.mem_append.2 (Or.inr hv), htr⟩

/-- C10.  Merge commutativity for list-valued blueprint fields: merging an
existing list with [a,b] and then [b,c] through `mergeStringLists` yields
the same set of entries as merging [b,c] and then [a,b] (the results agree
as sets; only the order of first occurrence may differ). -/
theorem mergeStringLists_commutative_sets (existing : Option (List Str)) (a b c x : Str) :
    x ∈ (mergeStringLists (mergeStringLists existing (some [a, b])) (some [b, c])).getD [] ↔
    x ∈ (mergeStringLists (mergeStringLists existing (some [b, c])) (some [a, b])).getD [] := by
  rw [mem_merge_twice, mem_merge_twice]
  have hcond : (nbTrims (existing.getD [] ++ ([a, b] ++ [b, c])) = []) ↔
      (nbTrims (existing.getD [] ++ ([b, c] ++ [a, b])) = []) := by
    rw [nbTrims_nil_iff, nbTrims_nil_iff]
    constructor <;> intro h t ht <;> apply h t <;>
      · simp only [List.mem_append, List.mem_cons, List.not_mem_nil, or_false] at ht ⊢
        tauto
  by_cases h : nbTrims (existing.getD [] ++ ([a, b] ++ [b, c])) = []
  · rw [if_pos h, if_pos (hcond.1 h)]
  · rw [if_neg h, if_neg (fun hh => h (hcond.2 hh))]
    constructor <;> rintro ⟨⟨t, ht, htr⟩, hx⟩ <;> refine ⟨⟨t, ?_, htr⟩, hx⟩ <;>
      · simp only [List.mem_append, List.mem_cons, List.not_mem_nil, or_false] at ht ⊢
        tauto

-- ### C9: frame property of the per-turn merge

/-- C4 (witness): the bounds applied to a concrete definition (default and
explicit positive weights) and a half-filled dossier. -/
theorem completeness_bounds_witness :
    0 ≤ (computeConfidence scorerWitnessDefinition
        [(str "overview", str "Ship the MVP")] []).completeness ∧
    (computeConfidence scorerWitnessDefinition
        [(str "overview", str "Ship the MVP")] []).completeness ≤ 1 := by
  have h := completeness_bounds scorerWitnessDefinition
    [(str "overview", str "Ship the MVP")] []
    (by
      intro f hf
      rcases List.mem_cons.1 hf with rfl | hf'
      · norm_num
      · rcases List.mem_cons.1 hf' with rfl | hf''
        · norm_num
        · simp at hf'')
  exact h.1

/-- Fields for which the response offers no non-blank value pass through
the merge fold unchanged, in both the answers and the dossier component. -/
theorem applyExtractedAnswer_foldl_frame (sessionAnswers : List (Str × AnswerRecord))
    (now : ℕ) (f : Str) (l : List ExtractedAnswer)
    (acc : List (Str × AnswerRecord) × List (Str × Str))
    (hno : ∀ a ∈ l, a.fieldId = f → trim a.value = []) :
    recGet (l.foldl (applyExtractedAnswer sessionAnswers now) acc).1 f = recGet acc.1 f ∧
    recGet (l.foldl (applyExtractedAnswer sessionAnswers now) acc).2 f = recGet acc.2 f := by
  induction l generalizing acc with
  | nil => exact ⟨rfl, rfl⟩
  | cons a rest ih =>
    simp only [List.foldl_cons]
    by_cases hblank : (trim a.value).isEmpty
    · rw [show applyExtractedAnswer sessionAnswers now acc a = acc by
        rw [applyExtractedAnswer, if_pos hblank]]
      exact ih _ (fun b hb => hno b (List.mem_cons_of_mem a hb))
    · have hne : a.fieldId ≠ f := by
        intro hf
        exact hblank (by simp [hno a (List.mem_cons_self a rest) hf])
      rw [show applyExtractedAnswer sessionAnswers now acc a =
          (recSet acc.1 a.fieldId
            { fieldId := a.fieldId, value := trim a.value, source := AnswerSource.user
              confidence := a.confidence
              timestamps := ((recGet sessionAnswers a.fieldId).map
                (fun rec0 : AnswerRecord => rec0.timestamps)).getD [] ++ [now] },
           recSet acc.2 a.fieldId (trim a.value)) by
        rw [applyExtractedAnswer, if_neg hblank]]
      obtain ⟨ha, hd⟩ := ih (recSet acc.1 a.fieldId
            { fieldId := a.fieldId, value := trim a.value, source := AnswerSource.user
              confidence := a.confidence
              timestamps := ((recGet sessionAnswers a.fieldId).map
                (fun rec0 : AnswerRecord => rec0.timestamps)).getD [] ++ [now] },
           recSet acc.2 a.fieldId (trim a.value))
        (fun b hb => hno b (List.mem_cons_of_mem a hb))
      rw [ha, hd]
      exact ⟨recGet_set_ne _ _ _ _ (fun hh => hne hh.symm),
        recGet_set_ne _ _ _ _ (fun hh => hne hh.symm)⟩

/-- Once the answer record for `f` carries the appended timestamp history,
the rest of the merge fold preserves it (a later write for `f` writes the
same history again, since the fold reads histories from the pre-merge
answers). -/
theorem applyExtractedAnswer_foldl_ts_stable (sessionAnswers : List (Str × AnswerRecord))
    (now : ℕ) (f : Str) (l : List ExtractedAnswer)
    (acc : List (Str × AnswerRecord) × List (Str × Str))
    (h : (recGet acc.1 f).map (fun r => r.timestamps) =
      some (((recGet sessionAnswers f).map (fun r => r.timestamps)).getD [] ++ [now])) :
    (recGet (l.foldl (applyExtractedAnswer sessionAnswers now) acc).1 f).map
        (fun r => r.timestamps) =
      some (((recGet sessionAnswers f).map (fun r => r.timestamps)).getD [] ++ [now]) := by
  induction l generalizing acc with
  | nil => exact h
  | cons a rest ih =>
    simp only [List.foldl_cons]
    by_cases hblank : (trim a.value).isEmpty
    · rw [show applyExtractedAnswer sessionAnswers now acc a = acc by
        rw [applyExtractedAnswer, if_pos hblank]]
      exact ih _ h
    · rw [show applyExtractedAnswer sessionAnswers now acc a =
          (recSet acc.1 a.fieldId
            { fieldId := a.fieldId, value := trim a.value, source := AnswerSource.user
              confidence := a.confidence
              timestamps := ((recGet sessionAnswers a.fieldId).map
                (fun rec0 : AnswerRecord => rec0.timestamps)).getD [] ++ [now] },
           recSet acc.2 a.fieldId (trim a.value)) by
        rw [applyExtractedAnswer, if_neg hblank]]
      apply ih
      by_cases hf : a.fieldId = f
      · subst hf
        rw [recGet_set_eq]
        rfl
      · rw [recGet_set_ne _ _ _ _ (fun hh => hf hh.symm)]
        exact h

/-- If some entry of `l` offers a non-blank value for `f`, the merge fold
ends with `f`'s timestamp history equal to the pre-merge history plus
`now` — provided `f` starts at its pre-merge record. -/
theorem applyExtractedAnswer_foldl_ts (sessionAnswers : List (Str × AnswerRecord))
    (now : ℕ) (f : Str) (l : List ExtractedAnswer)
    (acc : List (Str × AnswerRecord) × List (Str × Str))
    (hbase : recGet acc.1 f = recGet sessionAnswers f)
    (hex : ∃ a ∈ l, a.fieldId = f ∧ ¬ trim a.value = []) :
    (recGet (l.foldl (applyExtractedAnswer sessionAnswers now) acc).1 f).map
        (fun r => r.timestamps) =
      some (((recGet sessionAnswers f).map (fun r => r.timestamps)).getD [] ++ [now]) := by
  induction l generalizing acc with
  | nil => exact absurd hex (by simp)
  | cons a rest ih =>
    simp only [List.foldl_cons]
    by_cases hblank : (trim a.value).isEmpty
    · rw [show applyExtractedAnswer sessionAnswers now acc a = acc by
        rw [applyExtractedAnswer, if_pos hblank]]
      apply ih _ hbase
      obtain ⟨b, hb, hbf, hbv⟩ := hex
      rcases List.mem_cons.1 hb with rfl | hb'
      · exact absurd (by simpa using hblank) hbv
      · exact ⟨b, hb', hbf, hbv⟩
    · rw [show applyExtractedAnswer sessionAnswers now acc a =
          (recSet acc.1 a.fieldId
            { fieldId := a.fieldId, value := trim a.value, source := AnswerSource.user
              confidence := a.confidence
              timestamps := ((recGet sessionAnswers a.fieldId).map
                (fun rec0 : AnswerRecord => rec0.timestamps)).getD [] ++ [now] },
           recSet acc.2 a.fieldId (trim a.value)) by
        rw [applyExtractedAnswer, if_neg hblank]]
      by_cases hf : a.fieldId = f
      · apply applyExtractedAnswer_foldl_ts_stable
        subst hf
        rw [recGet_set_eq]
        rfl
      · apply ih
        · rw [recGet_set_ne _ _ _ _ (fun hh => hf hh.symm)]
          exact hbase
        · obtain ⟨b, hb, hbf, hbv⟩ := hex
          rcases List.mem_cons.1 hb with rfl | hb'
          · exact absurd hbf hf
          · exact ⟨b, hb', hbf, hbv⟩

/-- C9.  The per-turn merge never loses previously recorded answers: a
field for which the new message provides no (non-blank) value keeps its
answer record and dossier value unchanged, and a field that does receive a
value gets the turn timestamp appended to its history. -/
theorem merge_preserves_and_timestamps (session : DocSessionState) (message : BaseMessage)
    (messageIndex : ℕ) (response : Option ExtractionResponse) (now : ℕ) (f : Str) :
    ((∀ a ∈ (response.map (fun r => r.answers)).getD [], a.fieldId = f → trim a.value = []) →
      recGet (updateSessionFromMessage session message messageIndex response now).answers f
        = recGet session.answers f ∧
      recGet (updateSessionFromMessage session message messageIndex response now).dossier f
        = recGet session.dossier f) ∧
    (getMessageId message messageIndex ∉ session.processedMessageIds →
      (∃ a ∈ (response.map (fun r => r.answers)).getD [],
        a.fieldId = f ∧ ¬ trim a.value = []) →
      (recGet (updateSessionFromMessage session message messageIndex response now).answers f).map
          (fun r => r.timestamps)
        = some (((recGet session.answers f).map (fun r => r.timestamps)).getD [] ++ [now])) := by
  by_cases hg : getMessageId message messageIndex ∈ session.processedMessageIds
  · constructor
    · intro _
      simp only [updateSessionFromMessage, if_pos hg]
      exact ⟨by trivial, by trivial⟩
    · intro hng
      exact absurd hg hng
  · constructor
    · intro hno
      simp only [updateSessionFromMessage, if_neg hg]
      cases response with
      | none => exact ⟨rfl, rfl⟩
      | some r =>
        exact applyExtractedAnswer_foldl_frame session.answers now f r.answers
          (session.answers, session.dossier) hno
    · intro _ hex
      simp only [updateSessionFromMessage, if_neg hg]
      cases response with
      | none => exact absurd hex (by simp)
      | some r =>
        exact applyExtractedAnswer_foldl_ts session.answers now f r.answers
          (session.answers, session.dossier) rfl hex

/-- C9 (witness): one extracted answer for `overview`; the untouched
`goals` field keeps its (absent) record, and `overview` gets the timestamp
appended to its (empty) history. -/
theorem merge_preserves_and_timestamps_witness :
    recGet (updateSessionFromMessage witnessSessionA
      { role := str "human", id := some (str "m9"), kwargsId := none,
        additionalKwargsId := none, content := str "the overview" } 3
      (some { answers := [{ fieldId := str "overview", value := str " The plan ",
                            confidence := 1 }], title := none })
      1700000000099).answers (str "goals")
      = recGet witnessSessionA.answers (str "goals") ∧
    (recGet (updateSessionFromMessage witnessSessionA
      { role := str "human", id := some (str "m9"), kwargsId := none,
        additionalKwargsId := none, content := str "the overview" } 3
      (some { answers := [{ fieldId := str "overview", value := str " The plan ",
                            confidence := 1 }], title := none })
      1700000000099).answers (str "overview")).map (fun r => r.timestamps)
      = some [1700000000099] :=
  ⟨((merge_preserves_and_timestamps witnessSessionA
      { role := str "human", id := some (str "m9"), kwargsId := none,
        additionalKwargsId := none, content := str "the overview" } 3
      (some { answers := [{ fieldId := str "overview", value := str " The plan ",
                            confidence := 1 }], title := none })
      1700000000099 (str "goals")).1 (by decide)).1,
   ((merge_preserves_and_timestamps witnessSessionA
      { role := str "human", id := some (str "m9"), kwargsId := none,
        additionalKwargsId := none, content := str "the overview" } 3
      (some { answers := [{ fieldId := str "overview", value := str " The plan ",
                            confidence := 1 }], title := none })
      1700000000099 (str "overview")).2 (by decide) (by decide)).trans (by decide)⟩

-- ### C2: readiness is not monotonic

/-- A definition with one (unfilled in the fixtures below) required field. -/
def oneFieldDefinition : DocumentDefinition :=
  { emptyDefinition with
      required_fields :=
        [ { id := str "f1", label := str "F1", description := str "First fact"
            weight := none, required := true } ] }

/-- A session that is already `readyToGenerate` (as the readiness-utterance
override leaves it) with an empty dossier and no outstanding question. -/
def readySessionB : DocSessionState :=
  { active := true
    docType := str "prd"
    definition := oneFieldDefinition
    answers := []
    dossier := []
    pendingQuestions := []
    researchPlan := []
    citations := []
    confidence := 1
    readyToGenerate := true
    template := str "prd"
    title := str "PRD Draft"
    processedMessageIds := []
    lastAskedQuestionId := none }

/-- The follow-up human message of the next turn. -/
def readyMsgB : BaseMessage :=
  { role := str "human", id := some (str "mb"), kwargsId := none,
    additionalKwargsId := none, content := str "some more context" }

/-- `mergeProjectUserDetails` only ever rewrites the two dossier keys; every
other session field passes through unchanged. -/
theorem mergeProjectUserDetails_fields (s : DocSessionState) (d : Option ProjectUserDetails) :
    (mergeProjectUserDetails s d).readyToGenerate = s.readyToGenerate ∧
    (mergeProjectUserDetails s d).lastAskedQuestionId = s.lastAskedQuestionId ∧
    (mergeProjectUserDetails s d).pendingQuestions = s.pendingQuestions ∧
    (mergeProjectUserDetails s d).answers = s.answers ∧
    (mergeProjectUserDetails s d).definition = s.definition := by
  cases d with
  | none => exact ⟨rfl, rfl, rfl, rfl, rfl⟩
  | some dd =>
    simp only [mergeProjectUserDetails]
    split
    · exact ⟨rfl, rfl, rfl, rfl, rfl⟩
    · split
      · exact ⟨rfl, rfl, rfl, rfl, rfl⟩
      · exact ⟨rfl, rfl, rfl, rfl, rfl⟩

/-- A ready session with no outstanding asked question stays ready through
`processDocSessionCore`. -/
theorem applyAnswerToAskedQuestion_not_outstanding (now : ℕ) (u1 : DocSessionState)
    (trimmedContent : Str) (readyIntent : Bool)
    (hq : optStrTruthy u1.lastAskedQuestionId = false) :
    applyAnswerToAskedQuestion now u1 trimmedContent readyIntent = u1 := by
  rw [applyAnswerToAskedQuestion, hq]
  simp

theorem processDocSessionCore_preserves_ready
    (jsonDetails : Str → Option ProjectUserDetails) (now : ℕ) (s : DocSessionState)
    (content : Str)
    (hready : s.readyToGenerate = true)
    (hq : optStrTruthy s.lastAskedQuestionId = false) :
    (processDocSessionCore jsonDetails now s content).readyToGenerate = true := by
  obtain ⟨h1r, h1q, _, _, _⟩ :=
    mergeProjectUserDetails_fields s (jsonDetails (trim content))
  simp only [processDocSessionCore]
  split
  · exact hready
  · rw [applyAnswerToAskedQuestion_not_outstanding _ _ _ _ (by rw [h1q]; exact hq)]
    rw [h1r, hready]
    simp only [Bool.not_true, Bool.false_and, Bool.false_eq_true, if_false]
    rw [h1r]
    exact hready

/-- C2 (amended).  `processDocSessionMessages` preserves `readyToGenerate`
when no asked question is outstanding (`lastAskedQuestionId` falsy) — but
answering an outstanding question recomputes readiness (see the
counterexample), and `maybeHandleDocSession` recomputes it unconditionally
from the current dossier every turn. -/
theorem ready_preserved_without_outstanding_question
    (jsonDetails : Str → Option ProjectUserDetails) (now : ℕ) (session : DocSessionState)
    (messages : List BaseMessage)
    (hready : session.readyToGenerate = true)
    (hq : optStrTruthy session.lastAskedQuestionId = false) :
    (processDocSessionMessages jsonDetails now session messages).readyToGenerate = true := by
  cases hL : latestHumanMessage messages with
  | none =>
    simp only [processDocSessionMessages, hL]
    exact hready
  | some m =>
    cases hid : getDeterministicMessageId m with
    | none =>
      simp only [processDocSessionMessages, hL, hid]
      exact processDocSessionCore_preserves_ready _ _ _ _ hready hq
    | some mid =>
      by_cases hmem : mid ∈ session.processedMessageIds
      · simp only [processDocSessionMessages, hL, hid, if_pos hmem]
        exact hready
      · simp only [processDocSessionMessages, hL, hid, if_neg hmem]
        exact processDocSessionCore_preserves_ready _ _ _ _ hready hq

/-- C2 (amended, witness): a ready session with no outstanding question
processes a fresh message and stays ready. -/
theorem ready_preserved_witness :
    (processDocSessionMessages (fun _ => none) 7 readySessionB
      [readyMsgB]).readyToGenerate = true :=
  ready_preserved_without_outstanding_question (fun _ => none) 7 readySessionB
    [readyMsgB] rfl rfl

/-- C2 (counterexample).  A session that is `readyToGenerate` (e.g. via the
"we're ready" utterance override on an earlier turn) is un-readied by the
very next `maybeHandleDocSession` turn: the per-message update recomputes
readiness from confidence and missing required fields and sets it back to
false. -/
theorem ready_not_monotonic :
    readySessionB.readyToGenerate = true ∧
    (maybeHandleDocSessionStep readySessionB readyMsgB 0 none 5).readyToGenerate = false := by
  refine ⟨rfl, ?_⟩
  have hm : ((computeConfidence
      (updateSessionFromMessage readySessionB readyMsgB 0 none 5).definition
      (updateSessionFromMessage readySessionB readyMsgB 0 none 5).dossier
      (updateSessionFromMessage readySessionB readyMsgB 0 none 5).citations).missingRequired).isEmpty
      = false := by decide
  show (decide ((0.75 : ℚ) ≤ (computeConfidence
      (updateSessionFromMessage readySessionB readyMsgB 0 none 5).definition
      (updateSessionFromMessage readySessionB readyMsgB 0 none 5).dossier
      (updateSessionFromMessage readySessionB readyMsgB 0 none 5).citations).overall) &&
    ((computeConfidence
      (updateSessionFromMessage readySessionB readyMsgB 0 none 5).definition
      (updateSessionFromMessage readySessionB readyMsgB 0 none 5).dossier
      (updateSessionFromMessage readySessionB readyMsgB 0 none 5).citations).missingRequired).isEmpty)
      = false
  rw [hm, Bool.and_false]

-- ### C1: the exact readiness conditions

/-- With a fresh (unprocessed) latest human message, `processDocSessionMessages`
is the core update on the session extended with the message id. -/
theorem processDocSessionMessages_to_core (jsonDetails : Str → Option ProjectUserDetails)
    (now : ℕ) (s : DocSessionState) (messages : List BaseMessage) (m : BaseMessage) (mid : Str)
    (hL : latestHumanMessage messages = some m)
    (hid : getDeterministicMessageId m = some mid)
    (hnp : mid ∉ s.processedMessageIds) :
    processDocSessionMessages jsonDetails now s messages =
      processDocSessionCore jsonDetails now
        { s with processedMessageIds := s.processedMessageIds ++ [mid] } m.content := by
  simp only [processDocSessionMessages, hL, hid, if_neg hnp]

/-- A readiness utterance always leaves the core update with
`readyToGenerate = true`. -/
theorem processDocSessionCore_ready_intent (jsonDetails : Str → Option ProjectUserDetails)
    (now : ℕ) (s : DocSessionState) (content : Str)
    (ht : (trim content).isEmpty = false)
    (hI : detectReadyIntent (trim content) = true) :
    (processDocSessionCore jsonDetails now s content).readyToGenerate = true := by
  simp only [processDocSessionCore]
  rw [if_neg (by simp [ht]), hI]
  cases hu : (applyAnswerToAskedQuestion now
      (mergeProjectUserDetails s (jsonDetails (trim content))) (trim content)
      true).readyToGenerate with
  | true =>
    simp only [Bool.not_true, Bool.false_and, Bool.false_eq_true, if_false]
    exact hu
  | false =>
    simp

/-- The answered-question branch of the core update, characterised:
message answers the outstanding pending question, the question is dropped,
and readiness is recomputed from coverage / question exhaustion. -/
theorem processDocSessionCore_answered (jsonDetails : Str → Option ProjectUserDetails)
    (now : ℕ) (s : DocSessionState) (content : Str) (qid : Str) (tq : QuestionPlanItem)
    (ht : (trim content).isEmpty = false)
    (hI : detectReadyIntent (trim content) = false)
    (hq : s.lastAskedQuestionId = some qid)
    (hqt : qid.isEmpty = false)
    (hfind : s.pendingQuestions.find? (fun q => q.id = qid) = some tq) :
    processDocSessionCore jsonDetails now s content =
      (let u1 := mergeProjectUserDetails s (jsonDetails (trim content))
       let updatedAnswers := tq.targets.foldl (fun ua targetId =>
          if targetId.isEmpty then ua
          else recSet ua targetId
            { fieldId := targetId
              value := trim content
              source := AnswerSource.user
              confidence := 0.7
              timestamps := ((recGet ua targetId).map (fun r => r.timestamps)).getD [] ++ [now] })
          u1.answers
       let remainingQuestions := u1.pendingQuestions.filter (fun q => q.id ≠ tq.id)
       let confidence := calculateCoverageConfidence u1.definition updatedAnswers
       { u1 with
           answers := updatedAnswers
           pendingQuestions := remainingQuestions
           confidence := confidence
           readyToGenerate := decide (75 ≤ confidence) || remainingQuestions.isEmpty
           lastAskedQuestionId := none }) := by
  obtain ⟨h1r, h1q, h1p, h1a, h1d⟩ := mergeProjectUserDetails_fields s (jsonDetails (trim content))
  simp only [processDocSessionCore]
  rw [if_neg (by simp [ht]), hI]
  have happ : applyAnswerToAskedQuestion now
      (mergeProjectUserDetails s (jsonDetails (trim content))) (trim content) false =
      (let u1 := mergeProjectUserDetails s (jsonDetails (trim content))
       let updatedAnswers := tq.targets.foldl (fun ua targetId =>
          if targetId.isEmpty then ua
          else recSet ua targetId
            { fieldId := targetId
              value := trim content
              source := AnswerSource.user
              confidence := 0.7
              timestamps := ((recGet ua targetId).map (fun r => r.timestamps)).getD [] ++ [now] })
          u1.answers
       let remainingQuestions := u1.pendingQuestions.filter (fun q => q.id ≠ tq.id)
       let confidence := calculateCoverageConfidence u1.definition updatedAnswers
       { u1 with
           answers := updatedAnswers
           pendingQuestions := remainingQuestions
           confidence := confidence
           readyToGenerate := decide (75 ≤ confidence) || remainingQuestions.isEmpty
           lastAskedQuestionId := none }) := by
    rw [applyAnswerToAskedQuestion, h1q, hq]
    rw [show optStrTruthy (some qid) = true by simp [optStrTruthy, hqt]]
    simp only [Bool.not_true, Bool.false_eq_true, if_false]
    rw [show (some qid).getD [] = qid from rfl, h1p, hfind]
  rw [happ]
  simp only [Bool.and_false, Bool.false_eq_true, if_false]

/-- Coverage is at least 75% whenever 3 of 4 required fields are answered. -/
theorem calcCov_ge_of_counts (d : DocumentDefinition) (ans : List (Str × AnswerRecord))
    (hcount : ((d.required_fields.map (fun f => f.id)).filter (fun fieldId =>
        match recGet ans fieldId with
        | some r => !(trim r.value).isEmpty
        | none => false)).length = 3)
    (hlen : (d.required_fields.map (fun f => f.id)).length = 4) :
    (75 : ℚ) ≤ calculateCoverageConfidence d ans := by
  rw [calculateCoverageConfidence]
  rw [if_neg (by
    rw [List.isEmpty_iff]
    intro hh
    rw [hh] at hlen
    simp at hlen)]
  rw [hcount, hlen]
  norm_num [round_eq]

/-- On an empty dossier the scorer reports overall 0.2 (completeness 0,
evidence 0, clarity 1) and every required field missing. -/
theorem computeConfidence_empty_dossier (d : DocumentDefinition) :
    (computeConfidence d [] []).overall = 1/5 ∧
    (computeConfidence d [] []).missingRequired = d.required_fields := by
  have hcovfilter : d.required_fields.filter
      (fun f => dossierNonBlank (recGet ([] : List (Str × Str)) f.id)) = [] := by
    rw [List.filter_eq_nil_iff]
    intro f _
    simp [recGet, dossierNonBlank]
  have hmiss : (computeConfidence d [] []).missingRequired = d.required_fields := by
    rw [computeConfidence_missingRequired_def, List.filter_eq_self]
    intro f _
    simp [recGet, dossierNonBlank]
  refine ⟨?_, hmiss⟩
  have hcomp : (computeConfidence d [] []).completeness = 0 := by
    rw [computeConfidence_completeness_def, hcovfilter]
    simp only [List.foldl_nil, zero_div, ite_self]
  have hev : (computeConfidence d [] []).evidence = 0 := by
    rw [computeConfidence_evidence_def]
    rw [show (d.required_fields ++ d.optional_fields).filter
        (fun f => dossierTruthy (recGet ([] : List (Str × Str)) f.id)) = [] by
      rw [List.filter_eq_nil_iff]
      intro f _
      simp [recGet, dossierTruthy]]
    simp
  have hcl : (computeConfidence d [] []).clarity = 1 := by
    rw [computeConfidence_clarity_def]
    norm_num
  have hov := computeConfidence_overall_def d [] []
  rw [hcomp, hev, hcl] at hov
  rw [hov]
  norm_num [roundTo3, round_eq]

/-- C1 (amended).  The actual readiness conditions: (i) a readiness
utterance in a fresh message always sets `readyToGenerate`; (ii) when the
message answers the outstanding asked question (and is not a readiness
utterance), `readyToGenerate` is set exactly when post-merge required-field
coverage is ≥ 75% or no pending questions remain — the overall-confidence /
missing-required condition plays no role here; (iii) the
`maybeHandleDocSession` recompute sets `readyToGenerate` exactly when
overall confidence ≥ 0.75 AND no required field is missing — readiness
utterances and pending-question exhaustion play no role there. -/
theorem readiness_conditions_characterization :
    (∀ (jsonDetails : Str → Option ProjectUserDetails) (now : ℕ) (s : DocSessionState)
       (messages : List BaseMessage) (m : BaseMessage) (mid : Str),
       latestHumanMessage messages = some m →
       getDeterministicMessageId m = some mid →
       mid ∉ s.processedMessageIds →
       (trim m.content).isEmpty = false →
       detectReadyIntent (trim m.content) = true →
       (processDocSessionMessages jsonDetails now s messages).readyToGenerate = true) ∧
    (∀ (jsonDetails : Str → Option ProjectUserDetails) (now : ℕ) (s : DocSessionState)
       (messages : List BaseMessage) (m : BaseMessage) (mid qid : Str)
       (tq : QuestionPlanItem),
       latestHumanMessage messages = some m →
       getDeterministicMessageId m = some mid →
       mid ∉ s.processedMessageIds →
       (trim m.content).isEmpty = false →
       detectReadyIntent (trim m.content) = false →
       s.lastAskedQuestionId = some qid →
       qid.isEmpty = false →
       s.pendingQuestions.find? (fun q => q.id = qid) = some tq →
       ((processDocSessionMessages jsonDetails now s messages).readyToGenerate = true ↔
         ((75 : ℚ) ≤ calculateCoverageConfidence s.definition
            (processDocSessionMessages jsonDetails now s messages).answers ∨
          (processDocSessionMessages jsonDetails now s messages).pendingQuestions = []))) ∧
    (∀ s : DocSessionState,
       ((refreshDocSessionReadiness s).readyToGenerate = true ↔
         ((0.75 : ℚ) ≤ (computeConfidence s.definition s.dossier s.citations).overall ∧
          (computeConfidence s.definition s.dossier s.citations).missingRequired = []))) := by
  refine ⟨?_, ?_, ?_⟩
  · intro jsonDetails now s messages m mid hL hid hnp ht hI
    rw [processDocSessionMessages_to_core jsonDetails now s messages m mid hL hid hnp]
    exact processDocSessionCore_ready_intent jsonDetails now _ m.content ht hI
  · intro jsonDetails now s messages m mid qid tq hL hid hnp ht hI hq hqt hfind
    rw [processDocSessionMessages_to_core jsonDetails now s messages m mid hL hid hnp]
    rw [processDocSessionCore_answered jsonDetails now
      { s with processedMessageIds := s.processedMessageIds ++ [mid] } m.content qid tq
      ht hI hq hqt hfind]
    obtain ⟨_, _, _, _, h1d⟩ := mergeProjectUserDetails_fields
      { s with processedMessageIds := s.processedMessageIds ++ [mid] }
      (jsonDetails (trim m.content))
    simp only [h1d]
    simp only [Bool.or_eq_true, decide_eq_true_eq, List.isEmpty_iff]
  · intro s
    simp only [refreshDocSessionReadiness]
    simp only [Bool.and_eq_true, decide_eq_true_eq, List.isEmpty_iff]

-- C1 counterexample fixtures

/-- Four required fields; the dossier stays empty in the fixture. -/
def fourFieldDefinition : DocumentDefinition :=
  { emptyDefinition with
      required_fields :=
        [ { id := str "f1", label := str "F1", description := str "Fact 1"
            weight := none, required := true },
          { id := str "f2", label := str "F2", description := str "Fact 2"
            weight := none, required := true },
          { id := str "f3", label := str "F3", description := str "Fact 3"
            weight := none, required := true },
          { id := str "f4", label := str "F4", description := str "Fact 4"
            weight := none, required := true } ] }

/-- The question asked last turn, targeting `f1`. -/
def q1C : QuestionPlanItem :=
  { id := str "q1", text := str "Tell me about f1", targets := [str "f1"], priority := 2 }

/-- A second pending question (so the queue is not exhausted). -/
def q2C : QuestionPlanItem :=
  { id := str "q2", text := str "Tell me about f5", targets := [str "f5"], priority := 1 }

/-- A session mid-interview: `q1` was just asked, `f2`/`f3` already
answered, `f4` still missing, dossier empty. -/
def askedSessionC : DocSessionState :=
  { active := true
    docType := str "prd"
    definition := fourFieldDefinition
    answers :=
      [ (str "f2", { fieldId := str "f2", value := str "beta", source := AnswerSource.user,
                     confidence := 1, timestamps := [1] }),
        (str "f3", { fieldId := str "f3", value := str "gamma", source := AnswerSource.user,
                     confidence := 1, timestamps := [2] }) ]
    dossier := []
    pendingQuestions := [q1C, q2C]
    researchPlan := []
    citations := []
    confidence := 50
    readyToGenerate := false
    template := str "prd"
    title := str "PRD Draft"
    processedMessageIds := []
    lastAskedQuestionId := some (str "q1") }

/-- The user's answer to `q1` (no readiness utterance). -/
def answerMsgC : BaseMessage :=
  { role := str "human", id := some (str "mc"), kwargsId := none,
    additionalKwargsId := none, content := str "It uses a queue" }

/-- C1 (counterexample).  Answering the asked question brings coverage to
3/4 = 75%, so the code sets `readyToGenerate = true` — although the message
is no readiness utterance, a pending question remains, a required field
(`f4`) is missing, and the overall confidence is 0.2 < 0.75.  Under the
claimed condition `readyToGenerate` would have stayed false. -/
theorem readiness_counterexample :
    (processDocSessionMessages (fun _ => none) 9 askedSessionC [answerMsgC]).readyToGenerate
      = true ∧
    detectReadyIntent (trim answerMsgC.content) = false ∧
    (processDocSessionMessages (fun _ => none) 9 askedSessionC [answerMsgC]).pendingQuestions
      ≠ [] ∧
    (computeConfidence askedSessionC.definition
      (processDocSessionMessages (fun _ => none) 9 askedSessionC [answerMsgC]).dossier
      []).missingRequired ≠ [] ∧
    (computeConfidence askedSessionC.definition
      (processDocSessionMessages (fun _ => none) 9 askedSessionC [answerMsgC]).dossier
      []).overall < 3/4 := by
  have hrw := processDocSessionMessages_to_core (fun _ => none) 9 askedSessionC [answerMsgC]
    answerMsgC (str "mc") rfl rfl (by decide)
  have hans := processDocSessionCore_answered (fun _ => none) 9
    { askedSessionC with processedMessageIds := askedSessionC.processedMessageIds ++ [str "mc"] }
    answerMsgC.content (str "q1") q1C (by decide) (by decide) rfl (by decide) rfl
  rw [hrw, hans]
  have hu1 : mergeProjectUserDetails
      { askedSessionC with
          processedMessageIds := askedSessionC.processedMessageIds ++ [str "mc"] }
      ((fun _ : Str => (none : Option ProjectUserDetails)) (trim answerMsgC.content)) =
      { askedSessionC with
          processedMessageIds := askedSessionC.processedMessageIds ++ [str "mc"] } := rfl
  simp only [hu1]
  refine ⟨?_, by decide, ?_, ?_, ?_⟩
  · simp only [Bool.or_eq_true, decide_eq_true_eq]
    exact Or.inl (calcCov_ge_of_counts _ _ (by decide) (by decide))
  · exact List.cons_ne_nil _ _
  · exact
      (show (computeConfidence askedSessionC.definition [] []).missingRequired ≠ [] by
        rw [(computeConfidence_empty_dossier askedSessionC.definition).2]
        exact List.cons_ne_nil _ _)
  · exact
      (show (computeConfidence askedSessionC.definition [] []).overall < 3/4 by
        rw [(computeConfidence_empty_dossier askedSessionC.definition).1]
        norm_num)

/-- A not-yet-ready session for the readiness-utterance witness. -/
def notReadySessionR : DocSessionState :=
  { readySessionB with readyToGenerate := false }

/-- The witness readiness utterance. -/
def readyUtteranceMsgR : BaseMessage :=
  { role := str "human", id := some (str "mr"), kwargsId := none,
    additionalKwargsId := none, content := str "We're ready - go ahead and draft" }

/-- C1 (witness): the utterance clause applied to a concrete un-ready
session and the message "We're ready - go ahead and draft". -/
theorem readiness_conditions_witness :
    (processDocSessionMessages (fun _ => none) 3 notReadySessionR
      [readyUtteranceMsgR]).readyToGenerate = true :=
  readiness_conditions_characterization.1 (fun _ => none) 3 notReadySessionR
    [readyUtteranceMsgR] readyUtteranceMsgR (str "mr") rfl rfl (by decide) (by decide)
    (by decide)

end OpenCanvas
